import Mathlib

/-!
Verification development for the `flight-optimizer` component of the
`varunr89/tools` repository (`flight_optimizer.py`, `flight_sweep_analyze.py`).

Modelling conventions (shallow embedding):
* Python floats are modelled by `PyFloat`: an exact rational value, or one of
  the IEEE specials `inf`, `-inf`, `nan`.  All numeric values appearing in the
  verified claims (integer/half/quarter dollar amounts, minute fractions of
  hours) are exactly representable as doubles, so the rational idealization is
  exact on every input a claim touches.
* Calendar dates are modelled as absolute day indices (`ℕ`), with day 0 chosen
  to be a Monday so that `datetime.weekday()` becomes `d % 7` (Mon=0 .. Sun=6);
  `timedelta(days=k)` becomes `+ k`.  The `"%Y-%m-%d"` string round-trip is a
  bijection between date strings and day indices and is elided.
* `re.search` on the four fixed patterns `(\d+)\s*hr`, `(\d+)\s*min`,
  `(\d+)H`, `(\d+)M` is modelled by a deterministic left-to-right scanner
  (`scanUnit`): for these patterns greedy matching never needs backtracking,
  because shortening the digit run or the whitespace run leaves a digit or a
  whitespace character where the (letter-initial) unit literal would have to
  match.  Digits are ASCII, as in every string the program constructs.
-/

attribute [local semireducible] Rat.add Rat.mul Rat.inv Rat.sub

/-- Model of a Python float: exact rational, or one of the specials. -/
inductive PyFloat where
  | val (q : ℚ)
  | inf
  | ninf
  | nan
deriving DecidableEq

/-- IEEE addition on `PyFloat` (`x + y` in Python). -/
def PyFloat.add : PyFloat → PyFloat → PyFloat
  | .nan, _ => .nan
  | _, .nan => .nan
  | .inf, .ninf => .nan
  | .ninf, .inf => .nan
  | .inf, _ => .inf
  | _, .inf => .inf
  | .ninf, _ => .ninf
  | _, .ninf => .ninf
  | .val a, .val b => .val (a + b)

/-- IEEE strict comparison on `PyFloat` (`x < y` in Python); `nan` compares
false against everything. -/
def PyFloat.lt : PyFloat → PyFloat → Bool
  | .nan, _ => false
  | _, .nan => false
  | .ninf, .ninf => false
  | .ninf, _ => true
  | _, .ninf => false
  | .inf, _ => false
  | .val _, .inf => true
  | .val a, .val b => decide (a < b)

/-- IEEE non-strict comparison on `PyFloat` (`x <= y` in Python); `nan`
compares false against everything. -/
def PyFloat.le : PyFloat → PyFloat → Bool
  | .nan, _ => false
  | _, .nan => false
  | .ninf, _ => true
  | _, .ninf => false
  | _, .inf => true
  | .inf, _ => false
  | .val a, .val b => decide (a ≤ b)

/-- Total linear extension of the IEEE order, used to model what Python's
stable `list.sort` does with float keys: it coincides with `PyFloat.le`
whenever neither side is `nan` (the adapters are proved to produce only
finite scores, so the extension is never exercised on real data). -/
def PyFloat.keyLE : PyFloat → PyFloat → Bool
  | .ninf, _ => true
  | _, .ninf => false
  | .val a, .val b => decide (a ≤ b)
  | .val _, _ => true
  | _, .val _ => false
  | .inf, .inf => true
  | .inf, .nan => true
  | .nan, .inf => false
  | .nan, .nan => true

/-- Finiteness predicate: the float is an actual number. -/
def PyFloat.isFinite : PyFloat → Prop
  | .val _ => True
  | _ => False

/-- Python `sum(...)` over floats: left fold of `+` starting from `0`. -/
def sumPyFloat (l : List PyFloat) : PyFloat :=
  l.foldl PyFloat.add (.val 0)

/-- Decimal digit character for `d ≤ 9` (the characters `str(n)` uses). -/
def digitChar (d : ℕ) : Char :=
  match d with
  | 0 => '0' | 1 => '1' | 2 => '2' | 3 => '3' | 4 => '4'
  | 5 => '5' | 6 => '6' | 7 => '7' | 8 => '8' | _ => '9'

/-- Fuel-driven worker for `natDigits`; the fuel strictly exceeds the number,
which strictly bounds the number of divisions by 10. -/
def natDigitsAux : ℕ → ℕ → List Char
  | 0, _ => []
  | f + 1, n =>
    if n < 10 then [digitChar n]
    else natDigitsAux f (n / 10) ++ [digitChar (n % 10)]

/-- Decimal digit list of a natural number, most significant first: the
character content of Python's `str(n)` / `f"{n}"` for a non-negative int. -/
def natDigits (n : ℕ) : List Char := natDigitsAux (n + 1) n

/-- Decimal string of a natural number (Python `str(n)`). -/
def natStr (n : ℕ) : String := String.mk (natDigits n)

/-- Numeric value of a list of decimal digit characters (Python `int(s)` on a
digit string). -/
def natOfDigits (ds : List Char) : ℕ :=
  ds.foldl (fun a c => 10 * a + (c.toNat - 48)) 0

/-- Model of `re.search(r'(\d+)<ws?><unit>', s)` for the four fixed patterns of
the source: scan left to right; at each position starting a digit run, take the
maximal run, optionally skip whitespace (`ws = true` models `\s*`), and require
the unit literal; on failure resume one character further right.  Returns the
`int` value of the first matching group. -/
def scanUnit (ws : Bool) (unit : List Char) : List Char → Option ℕ
  | [] => none
  | c :: cs =>
    if c.isDigit then
      let ds := (c :: cs).takeWhile Char.isDigit
      let rest := (c :: cs).dropWhile Char.isDigit
      let rest2 := if ws then rest.dropWhile Char.isWhitespace else rest
      if unit.isPrefixOf rest2 then some (natOfDigits ds)
      else scanUnit ws unit cs
    else scanUnit ws unit cs

/-- Source `flight_optimizer.py` lines 76-87 (`FlightLeg.duration_hours`) and
`flight_sweep_analyze.py` lines 149-161 (`parse_duration_str`): parse a
display duration string such as `"16 hr 30 min"` into hours, missing
components counting as zero. -/
def parse_duration_str (duration_str : String) : ℚ :=
  let hours := (scanUnit true ['h', 'r'] duration_str.toList).getD 0
  let minutes := (scanUnit true ['m', 'i', 'n'] duration_str.toList).getD 0
  (hours : ℚ) + (minutes : ℚ) / 60

/-- Source `flight_sweep_analyze.py` lines 134-146 (`parse_duration_iso`):
parse an ISO-8601 duration such as `"PT16H30M"` directly into hours. -/
def parse_duration_iso (iso_duration : String) : ℚ :=
  let hours := (scanUnit false ['H'] iso_duration.toList).getD 0
  let minutes := (scanUnit false ['M'] iso_duration.toList).getD 0
  (hours : ℚ) + (minutes : ℚ) / 60

/-- Strip leading and trailing whitespace (Python `str.strip()` as used on the
ASCII strings this program handles). -/
def trimWs (cs : List Char) : List Char :=
  ((cs.dropWhile Char.isWhitespace).reverse.dropWhile Char.isWhitespace).reverse

/-- Split an optional leading sign; returns (isNegative, rest). -/
def splitSign (cs : List Char) : Bool × List Char :=
  match cs with
  | c :: rest =>
    if c = '+' then (false, rest)
    else if c = '-' then (true, rest)
    else (false, cs)
  | [] => (false, cs)

/-- Exponent-and-tail part of a Python float literal: after the mantissa
digits (`mant`, with `frac` of them behind the decimal point), accept either
end of input or `e`/`E`, optional sign, and a non-empty digit run consuming
the remainder. -/
def parseExpPart (mant : List Char) (frac : ℕ) (rest : List Char) : Option ℚ :=
  match rest with
  | [] => some ((natOfDigits mant : ℚ) / 10 ^ frac)
  | e :: r2 =>
    if e = 'e' ∨ e = 'E' then
      let sr := splitSign r2
      let ed := sr.2.takeWhile Char.isDigit
      let r4 := sr.2.dropWhile Char.isDigit
      if ed = [] ∨ r4 ≠ [] then none
      else
        let ex : ℤ := if sr.1 then -(natOfDigits ed : ℤ) else (natOfDigits ed : ℤ)
        some ((natOfDigits mant : ℚ) / 10 ^ frac * (10 : ℚ) ^ ex)
    else none

/-- Numeric (non-special) body of a Python float literal: digits with an
optional decimal point somewhere, at least one digit overall, optional
exponent; anything else is rejected. -/
def parseNumericQ (cs : List Char) : Option ℚ :=
  let d1 := cs.takeWhile Char.isDigit
  let r1 := cs.dropWhile Char.isDigit
  match r1 with
  | '.' :: r2 =>
    let d2 := r2.takeWhile Char.isDigit
    let r3 := r2.dropWhile Char.isDigit
    if d1 = [] ∧ d2 = [] then none
    else parseExpPart (d1 ++ d2) d2.length r3
  | _ => if d1 = [] then none else parseExpPart d1 0 r1

/-- Model of Python's `float(s)` on ASCII input: strip whitespace, optional
sign, then either a special literal (`inf`, `infinity`, `nan`,
case-insensitive) or a numeric literal; `none` models `ValueError`.
(Digit-group underscores and non-ASCII digits, which `float` also accepts,
are not modelled; no string this program builds or that a claim mentions
contains them.) -/
def pyFloatOfString (s : String) : Option PyFloat :=
  let cs := trimWs s.toList
  let sr := splitSign cs
  let low := sr.2.map Char.toLower
  if low = ['i', 'n', 'f'] ∨ low = ['i', 'n', 'f', 'i', 'n', 'i', 't', 'y'] then
    some (if sr.1 then .ninf else .inf)
  else if low = ['n', 'a', 'n'] then some .nan
  else
    match parseNumericQ sr.2 with
    | some q => some (.val (if sr.1 then -q else q))
    | none => none

/-- Python `str.replace("US", "")`: remove occurrences left to right, without
overlap, resuming after each removed occurrence. -/
def removeUS : List Char → List Char
  | 'U' :: 'S' :: cs => removeUS cs
  | c :: cs => c :: removeUS cs
  | [] => []

/-- Cleaning step of `parse_price`:
`price_str.replace('$', '').replace(',', '').replace('US', '').strip()`. -/
def cleanedPrice (price_str : String) : List Char :=
  trimWs (removeUS ((price_str.toList.filter (· ≠ '$')).filter (· ≠ ',')))

/-- Source `flight_optimizer.py` lines 126-134 (`parse_price`): strip `$`,
`,` and `US`, trim, then `float(...)`; empty input or a parse failure yields
the invalid-price sentinel `float('inf')`. -/
def parse_price (price_str : String) : PyFloat :=
  if price_str = "" then .inf
  else
    match pyFloatOfString (String.mk (cleanedPrice price_str)) with
    | some p => p
    | none => .inf

/-- Source `flight_sweep_analyze.py` lines 164-172 (`parse_price_str`): same
as `parse_price` but without the `US` removal. -/
def parse_price_str (price_str : String) : PyFloat :=
  if price_str = "" then .inf
  else
    let cleaned := trimWs ((price_str.toList.filter (· ≠ '$')).filter (· ≠ ','))
    match pyFloatOfString (String.mk cleaned) with
    | some p => p
    | none => .inf

/-- Signed special float literal test: after an optional sign, the lowercased
remainder is `inf`, `infinity` or `nan` — exactly the strings `float()`
accepts besides numeric literals. -/
def isInfNanLit (cs : List Char) : Bool :=
  let sr := splitSign cs
  let low := sr.2.map Char.toLower
  low = ['i', 'n', 'f'] || low = ['i', 'n', 'f', 'i', 'n', 'i', 't', 'y'] ||
    low = ['n', 'a', 'n']

/-- Round a non-negative rational to the nearest integer, ties to even: the
rounding `"%.0f"` formatting applies (every value the claims exercise is
exactly representable, so double rounding does not intervene). -/
def halfEvenN (q : ℚ) : ℤ :=
  let f := ⌊q⌋
  let r := q - (f : ℚ)
  if r < 1 / 2 then f
  else if 1 / 2 < r then f + 1
  else if f % 2 = 0 then f else f + 1

/-- Model of Python `f"{x:.0f}"` on a float. -/
def formatF0 : PyFloat → String
  | .val q => (if q < 0 then "-" else "") ++ natStr (halfEvenN |q|).toNat
  | .inf => "inf"
  | .ninf => "-inf"
  | .nan => "nan"

/-- Canonical price rendering `f"${price:.0f}"` used for `price_str` in
`flight_optimizer.py` lines 284, 370 and 398. -/
def renderPrice (p : PyFloat) : String := "$" ++ formatF0 p

/-- Fuel-driven loop body shared by the weekday counters: counts, among the
`fuel` consecutive day indices starting at `cur`, those whose weekday
(`index % 7`, Mon=0) is below 5. -/
def weekdayGo : ℕ → ℕ → ℕ
  | 0, _ => 0
  | f + 1, cur => (if cur % 7 < 5 then 1 else 0) + weekdayGo f (cur + 1)

/-- Source `flight_optimizer.py` lines 137-147 (`count_weekdays`): count
weekdays (Mon-Fri) between two dates inclusive, by iterating one day at a
time; the `while current <= end` loop runs exactly `end + 1 - start` times
(clamped at zero). -/
def count_weekdays (start_date end_date : ℕ) : ℕ :=
  weekdayGo (end_date + 1 - start_date) start_date

/-- Fuel-driven loop body of `Scenario.weekdays`, which spells the same
day-by-day loop out again inline (`flight_sweep_analyze.py` lines 104-110);
kept as a separate recursion to mirror the duplicated source. -/
def scenarioWeekdayGo : ℕ → ℕ → ℕ
  | 0, _ => 0
  | f + 1, cur => (if cur % 7 < 5 then 1 else 0) + scenarioWeekdayGo f (cur + 1)

/-- Source `flight_sweep_analyze.py` lines 99-110 (`Scenario.weekdays`): the
inline day-by-day weekday count from `depart_date` to `return_date`. -/
def scenarioWeekdayLoop (start_date end_date : ℕ) : ℕ :=
  scenarioWeekdayGo (end_date + 1 - start_date) start_date

/-- Source `flight_optimizer.py` lines 415-435 (`parse_iso_duration`): render
an ISO-8601 duration (`PT16H30M`) to the display form (`"16 hr 30 min"`,
`"16 hr"`, `"30 min"`, or `""`); the branch tests are Python truthiness of the
parsed ints. -/
def parse_iso_duration (iso_duration : String) : String :=
  if iso_duration = "" then ""
  else
    let hours := (scanUnit false ['H'] iso_duration.toList).getD 0
    let minutes := (scanUnit false ['M'] iso_duration.toList).getD 0
    if hours ≠ 0 ∧ minutes ≠ 0 then natStr hours ++ " hr " ++ natStr minutes ++ " min"
    else if hours ≠ 0 then natStr hours ++ " hr"
    else if minutes ≠ 0 then natStr minutes ++ " min"
    else ""

/-- Scoring weight: dollars per hour of travel time (`COST_PER_HOUR = 20`,
`flight_optimizer.py` line 39 and `flight_sweep_analyze.py` line 26). -/
def COST_PER_HOUR : ℚ := 20

/-- Scoring weight: dollars per stop (`COST_PER_STOP = 200`). -/
def COST_PER_STOP : ℚ := 200

/-- Scoring weight: dollars of childcare per weekday away
(`COST_PER_WEEKDAY = 200`). -/
def COST_PER_WEEKDAY : ℚ := 200

/-- Constraint threshold: maximum stop count per leg (`MAX_STOPS = 1`). -/
def MAX_STOPS : ℕ := 1

/-- Constraint threshold: maximum layover hours (`MAX_LAYOVER_HOURS = 4`). -/
def MAX_LAYOVER_HOURS : ℚ := 4

/-- Denylist of synthetic/test carrier-name fragments
(`flight_sweep_analyze.py` line 23). -/
def EXCLUDED_AIRLINE_PATTERNS : List String := ["Duffel", "Test"]

/-- Source `flight_optimizer.py` lines 48-61: the `FlightLeg` dataclass.
`stops` is written as `ℕ` because every constructor site in the source
produces a non-negative count (either `len(segments) - 1` with at least one
segment, or a provider int field defaulted to 0). -/
structure FlightLeg where
  origin : String
  destination : String
  date : ℕ
  airline : String
  departure : String
  arrival : String
  duration : String
  stops : ℕ
  price : PyFloat
  price_str : String
  is_best : Bool := false
deriving DecidableEq

/-- Source `flight_optimizer.py` lines 63-74 (`FlightLeg.passes_constraints`):
reject more than `MAX_STOPS` stops, a comma in the carrier field, or a price
equal to `float('inf')` (note: only the `inf` sentinel is rejected — the
comparison `price == float('inf')` is false for NaN, `-inf` and every finite
number, negative ones included). -/
def FlightLeg.passes_constraints (l : FlightLeg) : Bool :=
  if l.stops > MAX_STOPS then false
  else if ',' ∈ l.airline.toList then false
  else if l.price = .inf then false
  else true

/-- Source `flight_optimizer.py` lines 76-87 (`FlightLeg.duration_hours`):
parse the stored display-duration string; the method body is character for
character the same regex logic as `parse_duration_str`. -/
def FlightLeg.duration_hours (l : FlightLeg) : ℚ := parse_duration_str l.duration

/-- Source `flight_optimizer.py` lines 89-91 (`FlightLeg.score`):
`price + duration_hours() * COST_PER_HOUR + stops * COST_PER_STOP`,
left-associated float addition. -/
def FlightLeg.score (l : FlightLeg) : PyFloat :=
  (l.price.add (.val (l.duration_hours * COST_PER_HOUR))).add
    (.val ((l.stops : ℚ) * COST_PER_STOP))

/-- Source `flight_optimizer.py` lines 94-103: the `Itinerary` dataclass. -/
structure Itinerary where
  legs : List FlightLeg
  depart_date : ℕ
  return_date : ℕ
  europe_nights : ℕ
  india_nights : ℕ
  weekdays : ℕ
  source : String := "google_flights"
deriving DecidableEq

/-- Source `flight_optimizer.py` lines 105-108 (`Itinerary.flight_total`):
`sum(leg.price for leg in legs)`. -/
def Itinerary.flight_total (i : Itinerary) : PyFloat :=
  sumPyFloat (i.legs.map (·.price))

/-- Source `flight_optimizer.py` lines 110-113 (`Itinerary.flight_score`):
`sum(leg.score() for leg in legs)`. -/
def Itinerary.flight_score (i : Itinerary) : PyFloat :=
  sumPyFloat (i.legs.map (·.score))

/-- Source `flight_optimizer.py` lines 115-118 (`Itinerary.childcare_cost`):
`weekdays * COST_PER_WEEKDAY`. -/
def Itinerary.childcare_cost (i : Itinerary) : ℚ :=
  (i.weekdays : ℚ) * COST_PER_WEEKDAY

/-- Source `flight_optimizer.py` lines 120-123 (`Itinerary.total_score`):
`flight_score + childcare_cost`. -/
def Itinerary.total_score (i : Itinerary) : PyFloat :=
  i.flight_score.add (.val i.childcare_cost)

/-- Python substring test `p in s` on character lists. -/
def containsSub (s p : List Char) : Bool :=
  p.isPrefixOf s ||
    match s with
    | [] => false
    | _ :: t => containsSub t p

/-- Source `flight_sweep_analyze.py` lines 43-56: the `Flight` dataclass of
the analyze phase. -/
structure Flight where
  source : String
  airline : String
  price : PyFloat
  duration_hours : ℚ
  stops : ℕ
  max_layover_hours : Option ℚ
  origin : String
  destination : String
  date : ℕ
  departure_time : String := ""
  arrival_time : String := ""
deriving DecidableEq

/-- Source `flight_sweep_analyze.py` lines 58-77 (`Flight.passes_constraints`):
reject more than `MAX_STOPS` stops, a comma in the carrier field, a
case-insensitive excluded-airline fragment, or a known layover above
`MAX_LAYOVER_HOURS`; the price is not examined here at all (the callers test
`price < float('inf')` or `price > 0` separately). -/
def Flight.passes_constraints (f : Flight) : Bool :=
  if f.stops > MAX_STOPS then false
  else if ',' ∈ f.airline.toList then false
  else if EXCLUDED_AIRLINE_PATTERNS.any
      (fun p => containsSub (f.airline.toList.map Char.toLower) (p.toList.map Char.toLower)) then
    false
  else
    match f.max_layover_hours with
    | some q => if q > MAX_LAYOVER_HOURS then false else true
    | none => true

/-- Source `flight_sweep_analyze.py` lines 79-81 (`Flight.score`): same
formula as `FlightLeg.score`, with `duration_hours` a stored field. -/
def Flight.score (f : Flight) : PyFloat :=
  (f.price.add (.val (f.duration_hours * COST_PER_HOUR))).add
    (.val ((f.stops : ℚ) * COST_PER_STOP))

/-- Source `flight_sweep_analyze.py` lines 84-91: the `Scenario` dataclass. -/
structure Scenario where
  strategy : String
  depart_date : ℕ
  europe_nights : ℕ
  india_nights : ℕ
  legs : List Flight
deriving DecidableEq

/-- Source `flight_sweep_analyze.py` lines 93-97 (`Scenario.return_date`):
`depart_date + timedelta(days = 1 + europe_nights + india_nights)`. -/
def Scenario.return_date (s : Scenario) : ℕ :=
  s.depart_date + (1 + s.europe_nights + s.india_nights)

/-- Source `flight_sweep_analyze.py` lines 99-110 (`Scenario.weekdays`): the
inline weekday-count loop from `depart_date` to `return_date`. -/
def Scenario.weekdays (s : Scenario) : ℕ :=
  scenarioWeekdayLoop s.depart_date s.return_date

/-- Source `flight_sweep_analyze.py` lines 112-114 (`Scenario.total_price`). -/
def Scenario.total_price (s : Scenario) : PyFloat :=
  sumPyFloat (s.legs.map (·.price))

/-- Source `flight_sweep_analyze.py` lines 116-118 (`Scenario.total_hours`). -/
def Scenario.total_hours (s : Scenario) : ℚ :=
  (s.legs.map (·.duration_hours)).sum

/-- Source `flight_sweep_analyze.py` lines 120-122 (`Scenario.total_stops`). -/
def Scenario.total_stops (s : Scenario) : ℕ :=
  (s.legs.map (·.stops)).sum

/-- Source `flight_sweep_analyze.py` lines 124-126 (`Scenario.childcare_cost`). -/
def Scenario.childcare_cost (s : Scenario) : ℚ :=
  (s.weekdays : ℚ) * COST_PER_WEEKDAY

/-- Source `flight_sweep_analyze.py` lines 128-131 (`Scenario.total_score`):
`sum(leg.score() for leg in legs) + childcare_cost`. -/
def Scenario.total_score (s : Scenario) : PyFloat :=
  (sumPyFloat (s.legs.map (·.score))).add (.val s.childcare_cost)

/-- Ordering by a `PyFloat`-valued key, modelling Python's
`list.sort(key=...)` comparison (stable ascending sort on the keys under
`PyFloat.keyLE`, which agrees with float `<=` away from NaN). -/
def byKeyLE {α : Type} (k : α → PyFloat) (a b : α) : Prop :=
  PyFloat.keyLE (k a) (k b) = true

instance {α : Type} (k : α → PyFloat) : DecidableRel (byKeyLE k) :=
  fun _ _ => instDecidableEqBool _ _

instance {α : Type} (k : α → PyFloat) : IsTotal α (byKeyLE k) :=
  ⟨fun a b => by
    show PyFloat.keyLE (k a) (k b) = true ∨ PyFloat.keyLE (k b) (k a) = true
    cases k a <;> cases k b <;> simp [PyFloat.keyLE] <;> exact le_total _ _⟩

instance {α : Type} (k : α → PyFloat) : IsTrans α (byKeyLE k) :=
  ⟨fun a b c => by
    simp only [byKeyLE]
    generalize k a = x
    generalize k b = y
    generalize k c = z
    intro h1 h2
    cases x <;> cases y <;> cases z <;> simp_all [PyFloat.keyLE] <;>
      exact le_trans h1 h2⟩

/-- One flight segment of a Duffel offer slice; `marketing_carrier_name`
models `seg.get('marketing_carrier', {}).get('name', '')`. -/
structure DuffelSegment where
  marketing_carrier_name : String := ""
  departing_at : String := ""
  arriving_at : String := ""
deriving DecidableEq

/-- Placeholder segment; only reachable behind the non-empty-segments guards
of the adapters, mirroring how the source indexes `segments[0]` only after
`if not segments: continue`. -/
def emptySegment : DuffelSegment := {}

/-- One slice of a Duffel offer (`slice.get('segments', [])`,
`slice.get('duration', '')`). -/
structure DuffelSlice where
  segments : List DuffelSegment := []
  duration : String := ""
deriving DecidableEq

/-- One Duffel offer.  `total_amount` is the decimal amount string already
read as a number; `none` models an offer in which the field is missing, so
that `float(offer.get('total_amount', 0))` becomes `total_amount.getD 0`. -/
structure DuffelOffer where
  slices : List DuffelSlice := []
  total_amount : Option ℚ := none
deriving DecidableEq

/-- Source `flight_optimizer.py` lines 438-446 (`format_datetime`): display
formatting of an ISO timestamp, modelled as the identity on the string; its
output only ever feeds the display-only `departure`/`arrival` fields, which
no constraint, score or claim reads. -/
def format_datetime (iso_dt : String) : String := iso_dt

/-- Source `flight_optimizer.py` lines 253-258 / 354-358: collect the
distinct non-empty marketing-carrier names of a slice, in first-appearance
order (`if carrier and carrier not in airlines: airlines.append(carrier)`). -/
def collectCarriers (segs : List DuffelSegment) : List String :=
  segs.foldl
    (fun acc seg =>
      if seg.marketing_carrier_name ≠ "" ∧ seg.marketing_carrier_name ∉ acc then
        acc ++ [seg.marketing_carrier_name]
      else acc)
    []

/-- Shared leg construction of the Duffel adapters (`flight_optimizer.py`
lines 274-286 and 360-400): stops = segments - 1, display duration from the
ISO duration, comma-joined distinct carriers, the given price, and the
canonical `f"${price:.0f}"` price string. -/
def duffelSliceLeg (origin destination : String) (date : ℕ) (sl : DuffelSlice)
    (price : ℚ) : FlightLeg :=
  { origin, destination, date,
    airline := String.intercalate ", " (collectCarriers sl.segments),
    departure := format_datetime (sl.segments.headD emptySegment).departing_at,
    arrival := format_datetime (sl.segments.getLastD emptySegment).arriving_at,
    duration := parse_iso_duration sl.duration,
    stops := sl.segments.length - 1,
    price := .val price,
    price_str := renderPrice (.val price),
    is_best := false }

/-- Per-offer step of `search_flights_duffel` (`flight_optimizer.py` lines
235-272): skip an offer with no slices or whose first slice has no segments,
otherwise build the leg with price `float(offer.get('total_amount', 0))`. -/
def duffelOfferToLeg (from_airport to_airport : String) (date : ℕ)
    (offer : DuffelOffer) : Option FlightLeg :=
  match offer.slices.head? with
  | none => none
  | some sl =>
    if sl.segments = [] then none
    else some (duffelSliceLeg from_airport to_airport date sl (offer.total_amount.getD 0))

/-- Source `flight_optimizer.py` lines 202-296 (`search_flights_duffel`),
with the HTTP call abstracted into the `offers` argument (the parsed
`data['data']['offers']` list; a transport failure is the empty list): build
a leg per usable offer, keep those passing constraints, sort ascending by
`score()`, return the top 20. -/
def search_flights_duffel (offers : List DuffelOffer)
    (from_airport to_airport : String) (date : ℕ) : List FlightLeg :=
  let legs := (offers.filterMap (duffelOfferToLeg from_airport to_airport date)).filter
    (·.passes_constraints)
  (legs.insertionSort (byKeyLE FlightLeg.score)).take 20

/-- Outbound half of a round-trip offer (`flight_optimizer.py` lines
340-375): requires exactly two slices and a non-empty first slice; priced at
half the offer total. -/
def rtOutboundLeg (from_airport to_airport : String) (outbound_date : ℕ)
    (offer : DuffelOffer) : Option FlightLeg :=
  match offer.slices with
  | [out_slice, _] =>
    if out_slice.segments = [] then none
    else some (duffelSliceLeg from_airport to_airport outbound_date out_slice
      (offer.total_amount.getD 0 / 2))
  | _ => none

/-- Return half of a round-trip offer (`flight_optimizer.py` lines 340-347
and 377-400): requires exactly two slices and a non-empty second slice;
priced at half the offer total, routed back from destination to origin. -/
def rtReturnLeg (from_airport to_airport : String) (return_date : ℕ)
    (offer : DuffelOffer) : Option FlightLeg :=
  match offer.slices with
  | [_, ret_slice] =>
    if ret_slice.segments = [] then none
    else some (duffelSliceLeg to_airport from_airport return_date ret_slice
      (offer.total_amount.getD 0 / 2))
  | _ => none

/-- Source `flight_optimizer.py` lines 299-412 (`search_roundtrip_duffel`),
with the HTTP call abstracted into the `offers` argument: each offer's two
halves are filtered and collected independently into the outbound and return
candidate lists, each sorted ascending by `score()` and truncated to 20. -/
def search_roundtrip_duffel (offers : List DuffelOffer)
    (from_airport to_airport : String) (outbound_date return_date : ℕ) :
    List FlightLeg × List FlightLeg :=
  let outbound_legs := (offers.filterMap (rtOutboundLeg from_airport to_airport outbound_date)).filter
    (·.passes_constraints)
  let return_legs := (offers.filterMap (rtReturnLeg from_airport to_airport return_date)).filter
    (·.passes_constraints)
  ((outbound_legs.insertionSort (byKeyLE FlightLeg.score)).take 20,
   (return_legs.insertionSort (byKeyLE FlightLeg.score)).take 20)

/-- One cached Google flight record as read back by the analyze phase
(`flight_sweep_analyze.py` lines 197-210), with the `dict.get` defaults of
the source as field defaults. -/
structure GoogleFlightRec where
  airline : String := "Unknown"
  price : String := ""
  duration : String := ""
  stops : ℕ := 0
  departure : String := ""
  arrival : String := ""
deriving DecidableEq

/-- Source `flight_sweep_analyze.py` lines 198-210: build a `Flight` from a
cached Google record. -/
def googleRecFlight (origin dest : String) (date : ℕ) (f : GoogleFlightRec) : Flight :=
  { source := "google",
    airline := f.airline,
    price := parse_price_str f.price,
    duration_hours := parse_duration_str f.duration,
    stops := f.stops,
    max_layover_hours := none,
    origin, destination := dest, date,
    departure_time := f.departure,
    arrival_time := f.arrival }

/-- One cached Duffel offer record as read back by the analyze phase
(`flight_sweep_analyze.py` lines 217-234).  `price` is `none` when the field
is missing, so that `offer.get('price', float('inf'))` becomes an `inf`
price; `layovers` holds the `duration_minutes` values. -/
structure DuffelCachedOffer where
  airline : String := "Unknown"
  price : Option ℚ := none
  duration_iso : String := ""
  stops : ℕ := 0
  layovers : List ℕ := []
deriving DecidableEq

/-- Source `flight_sweep_analyze.py` lines 217-234: build a `Flight` from a
cached Duffel offer, with the maximum layover in hours when layover data is
present. -/
def duffelCachedFlight (origin dest : String) (date : ℕ) (o : DuffelCachedOffer) : Flight :=
  { source := "duffel",
    airline := o.airline,
    price := match o.price with | some q => .val q | none => .inf,
    duration_hours := parse_duration_iso o.duration_iso,
    stops := o.stops,
    max_layover_hours :=
      if o.layovers = [] then none
      else some (((o.layovers.foldl max 0 : ℕ) : ℚ) / 60),
    origin, destination := dest, date }

/-- Source `flight_sweep_analyze.py` lines 190-240 (`get_flights_for_route`),
with the cache reads abstracted into the two record lists (a missing cache
file is the empty list): keep records passing constraints with
`price < float('inf')`, Google's then Duffel's, and sort ascending by
`price` — the price field alone, not `score()` — with no truncation. -/
def get_flights_for_route (google_flights : List GoogleFlightRec)
    (duffel_offers : List DuffelCachedOffer) (origin dest : String) (date : ℕ) :
    List Flight :=
  let g := (google_flights.map (googleRecFlight origin dest date)).filter
    (fun fl => fl.passes_constraints && PyFloat.lt fl.price .inf)
  let d := (duffel_offers.map (duffelCachedFlight origin dest date)).filter
    (fun fl => fl.passes_constraints && PyFloat.lt fl.price .inf)
  (g ++ d).insertionSort (byKeyLE Flight.price)

/-- Combination enumeration of Strategy A (`flight_optimizer.py` lines
522-537): full Cartesian product of the top-5 candidates of each of the
three one-way lists, one `Itinerary` per combination, with the trip dates
and weekday count fixed beforehand from the departure date and stay lengths
(lines 480-498: return = depart + 1 + europe_nights + india_nights). -/
def tripCombos (l1 l2 l3 : List FlightLeg) (sea_depart europe_nights india_nights : ℕ) :
    List Itinerary :=
  (l1.take 5).flatMap fun leg1 =>
    (l2.take 5).flatMap fun leg2 =>
      (l3.take 5).map fun leg3 =>
        { legs := [leg1, leg2, leg3],
          depart_date := sea_depart,
          return_date := sea_depart + 1 + europe_nights + india_nights,
          europe_nights, india_nights,
          weekdays := count_weekdays sea_depart (sea_depart + 1 + europe_nights + india_nights) }

/-- Source `flight_optimizer.py` lines 469-546 (`search_trip_option`), with
the three network searches abstracted into the candidate-list arguments: if
any list is empty the grid point yields no itineraries; otherwise sort the
Cartesian-product combinations ascending by `total_score` and keep the top
10. -/
def search_trip_option (sea_depart europe_nights india_nights : ℕ)
    (l1 l2 l3 : List FlightLeg) : List Itinerary :=
  if l1 = [] ∨ l2 = [] ∨ l3 = [] then []
  else
    ((tripCombos l1 l2 l3 sea_depart europe_nights india_nights).insertionSort
      (byKeyLE Itinerary.total_score)).take 10

/-- Placeholder leg backing `List.getD`; only reachable when a candidate list
is empty, which the guard of `search_round_trip_strategy` excludes. -/
def defaultLeg : FlightLeg :=
  { origin := "", destination := "", date := 0, airline := "", departure := "",
    arrival := "", duration := "", stops := 0, price := .val 0, price_str := "" }

/-- Combination enumeration of Strategy B (`flight_optimizer.py` lines
631-649): the i-th ranked outbound of round-trip 1 is paired with the i-th
ranked return (index clamped to the list length), likewise for round-trip 2,
and the two pairs are crossed; dates per lines 587-608
(return = depart + 1 + europe_nights_before_india + india_nights + 1, with
one extra Europe night after India). -/
def rtCombos (sea_mxp_out mxp_sea_back mxp_hyd_out hyd_mxp_back : List FlightLeg)
    (sea_depart europe_nights_before_india india_nights : ℕ) : List Itinerary :=
  let mxp_to_sea := sea_depart + 1 + europe_nights_before_india + india_nights + 1
  let weekdays := count_weekdays sea_depart mxp_to_sea
  (sea_mxp_out.take 5).enum.flatMap fun p1 =>
    let leg4 := mxp_sea_back.getD (min p1.1 (mxp_sea_back.length - 1)) defaultLeg
    (mxp_hyd_out.take 5).enum.map fun p2 =>
      let leg3 := hyd_mxp_back.getD (min p2.1 (hyd_mxp_back.length - 1)) defaultLeg
      { legs := [p1.2, p2.2, leg3, leg4],
        depart_date := sea_depart,
        return_date := mxp_to_sea,
        europe_nights := europe_nights_before_india + 1,
        india_nights,
        weekdays }

/-- Source `flight_optimizer.py` lines 574-657 (`search_round_trip_strategy`),
with the two round-trip searches abstracted into the four candidate-list
arguments: if any of the four lists is empty the grid point yields no
itineraries; otherwise sort the index-paired combinations ascending by
`total_score` and keep the top 10. -/
def search_round_trip_strategy (sea_depart europe_nights_before_india india_nights : ℕ)
    (sea_mxp_out mxp_sea_back mxp_hyd_out hyd_mxp_back : List FlightLeg) : List Itinerary :=
  if sea_mxp_out = [] ∨ mxp_sea_back = [] ∨ mxp_hyd_out = [] ∨ hyd_mxp_back = [] then []
  else
    ((rtCombos sea_mxp_out mxp_sea_back mxp_hyd_out hyd_mxp_back
        sea_depart europe_nights_before_india india_nights).insertionSort
      (byKeyLE Itinerary.total_score)).take 10

/-- Placeholder flight backing `headD`; only reachable when a candidate list
is empty, which the guards of `build_scenarios` exclude. -/
def defaultFlight : Flight :=
  { source := "", airline := "", price := .val 0, duration_hours := 0, stops := 0,
    max_layover_hours := none, origin := "", destination := "", date := 0 }

/-- Strategy A grid-point step of `build_scenarios`
(`flight_sweep_analyze.py` lines 320-334): one scenario from the cheapest
flight of each leg list, or none when any list is empty. -/
def buildScenarioOneWay (depart_date europe_nights india_nights : ℕ)
    (leg1_flights leg2_flights leg3_flights : List Flight) : List Scenario :=
  if leg1_flights ≠ [] ∧ leg2_flights ≠ [] ∧ leg3_flights ≠ [] then
    [{ strategy := "one_way_x3", depart_date, europe_nights, india_nights,
       legs := [leg1_flights.headD defaultFlight, leg2_flights.headD defaultFlight,
         leg3_flights.headD defaultFlight] }]
  else []

/-- Strategy B grid-point step of `build_scenarios`
(`flight_sweep_analyze.py` lines 336-348): one scenario from the heads of the
four round-trip lists, or none when any list is empty. -/
def buildScenarioRoundTrip (depart_date europe_nights india_nights : ℕ)
    (rt1_out rt1_ret rt2_out rt2_ret : List Flight) : List Scenario :=
  if rt1_out ≠ [] ∧ rt1_ret ≠ [] ∧ rt2_out ≠ [] ∧ rt2_ret ≠ [] then
    [{ strategy := "round_trip_x2", depart_date, europe_nights, india_nights,
       legs := [rt1_out.headD defaultFlight, rt2_out.headD defaultFlight,
         rt2_ret.headD defaultFlight, rt1_ret.headD defaultFlight] }]
  else []

/-- Spec-side predicate, written from the specification's words for
comparison with the code: a price is "valid" iff it is finite and
non-negative. -/
def specPriceValid (p : PyFloat) : Prop := ∃ q : ℚ, p = .val q ∧ 0 ≤ q

/-- Example leg with a negative finite price and no other constraint
violation. -/
def negPriceLeg : FlightLeg :=
  { origin := "SEA", destination := "MXP", date := 0, airline := "Delta",
    departure := "", arrival := "", duration := "2 hr", stops := 0,
    price := .val (-5), price_str := "-5" }

/-- Example analyze-phase flight whose carrier name contains the excluded
fragment `Test` but which satisfies every predicate named by the claim. -/
def testAirFlight : Flight :=
  { source := "duffel", airline := "Test Air", price := .val 100,
    duration_hours := 2, stops := 0, max_layover_hours := none,
    origin := "SEA", destination := "MXP", date := 0 }

/-- Example leg satisfying all three constraint predicates. -/
def plainGoodLeg : FlightLeg :=
  { origin := "SEA", destination := "MXP", date := 0, airline := "Delta",
    departure := "", arrival := "", duration := "10 hr", stops := 1,
    price := .val 700, price_str := "$700" }

/-- Example Duffel offer whose `total_amount` field is missing. -/
def noAmountOffer : DuffelOffer :=
  { slices := [{ segments := [{ marketing_carrier_name := "Delta" }],
                 duration := "PT10H" }],
    total_amount := none }

/-- Example priced one-way Duffel offer (`total_amount` 1000). -/
def pricedOffer : DuffelOffer :=
  { slices := [{ segments := [{ marketing_carrier_name := "Delta" }],
                 duration := "PT10H" }],
    total_amount := some 1000 }

/-- Example round-trip Duffel offer whose outbound slice is nonstop but whose
return slice has three segments (two stops) on one carrier, so the return
half alone violates the stop constraint. -/
def rtBadOffer : DuffelOffer :=
  { slices :=
      [{ segments := [{ marketing_carrier_name := "Delta" }], duration := "PT9H" },
       { segments := [{ marketing_carrier_name := "Delta" },
                      { marketing_carrier_name := "Delta" },
                      { marketing_carrier_name := "Delta" }], duration := "PT20H" }],
    total_amount := some 1000 }

/-- Example round-trip Duffel offer with both halves nonstop on one carrier
and `total_amount` 1000. -/
def rtGoodOffer : DuffelOffer :=
  { slices :=
      [{ segments := [{ marketing_carrier_name := "Delta" }], duration := "PT9H" },
       { segments := [{ marketing_carrier_name := "Delta" }], duration := "PT10H" }],
    total_amount := some 1000 }

/-- Example cached Google record: cheap but slow with a stop, so its price is
low while its score is high. -/
def cheapSlowRec : GoogleFlightRec :=
  { airline := "Alpha", price := "$100", duration := "50 hr", stops := 1 }

/-- Example cached Google record: pricier but fast and nonstop, so its price
is high while its score is low. -/
def fastPriceyRec : GoogleFlightRec :=
  { airline := "Beta", price := "$200", duration := "", stops := 0 }

/-- Example candidate leg with a given finite price and no penalties. -/
def pricedLeg (q : ℚ) : FlightLeg :=
  { origin := "A", destination := "B", date := 0, airline := "X",
    departure := "", arrival := "", duration := "", stops := 0,
    price := .val q, price_str := "" }

/-- Example five-element candidate list with prices `b, b+1, ..., b+4`. -/
def fiveLegs (b : ℚ) : List FlightLeg :=
  [pricedLeg b, pricedLeg (b + 1), pricedLeg (b + 2), pricedLeg (b + 3), pricedLeg (b + 4)]

/-- Example leg whose stored duration is the rendered display form of
`PT16H30M`. -/
def isoDurationLeg : FlightLeg :=
  { origin := "SEA", destination := "MXP", date := 0, airline := "Delta",
    departure := "", arrival := "", duration := parse_iso_duration "PT16H30M",
    stops := 0, price := .val 100, price_str := "$100" }

/-- A `takeWhile` passes through a prefix on which the predicate holds
everywhere. -/
theorem takeWhile_append_all {p : Char → Bool} {l r : List Char}
    (h : ∀ c ∈ l, p c = true) : (l ++ r).takeWhile p = l ++ r.takeWhile p := by
  induction l with
  | nil => simp
  | cons c cs ih =>
    have hc : p c = true := h c (by simp)
    simp [List.takeWhile_cons, hc, ih fun x hx => h x (List.mem_cons_of_mem _ hx)]

/-- A `dropWhile` consumes a prefix on which the predicate holds everywhere. -/
theorem dropWhile_append_all {p : Char → Bool} {l r : List Char}
    (h : ∀ c ∈ l, p c = true) : (l ++ r).dropWhile p = r.dropWhile p := by
  induction l with
  | nil => simp
  | cons c cs ih =>
    have hc : p c = true := h c (by simp)
    simp [List.dropWhile_cons, hc, ih fun x hx => h x (List.mem_cons_of_mem _ hx)]

/-- A `takeWhile` stops immediately when the head fails the predicate. -/
theorem takeWhile_eq_nil_of_head (p : Char → Bool) {rest : List Char}
    (h : ∀ c, rest.head? = some c → p c = false) : rest.takeWhile p = [] := by
  cases rest with
  | nil => rfl
  | cons c cs => simp [List.takeWhile_cons, h c rfl]

/-- A `dropWhile` keeps the whole list when the head fails the predicate. -/
theorem dropWhile_eq_self_of_head (p : Char → Bool) {rest : List Char}
    (h : ∀ c, rest.head? = some c → p c = false) : rest.dropWhile p = rest := by
  cases rest with
  | nil => rfl
  | cons c cs => simp [List.dropWhile_cons, h c rfl]

/-- The scanner passes over a digit-free prefix. -/
theorem scanUnit_skip (ws : Bool) (u : List Char) {pre : List Char} (rest : List Char)
    (h : ∀ c ∈ pre, c.isDigit = false) :
    scanUnit ws u (pre ++ rest) = scanUnit ws u rest := by
  induction pre with
  | nil => rfl
  | cons c cs ih =>
    have hc : c.isDigit = false := h c (by simp)
    simp only [List.cons_append, scanUnit, hc, Bool.false_eq_true, if_false]
    exact ih fun x hx => h x (List.mem_cons_of_mem _ hx)

/-- The scanner succeeds on a digit run followed by a matching unit literal
(after optional whitespace), and returns the run's value. -/
theorem scanUnit_found (ws : Bool) (u : List Char) {ds rest : List Char}
    (hne : ds ≠ []) (hdig : ∀ c ∈ ds, c.isDigit = true)
    (hhead : ∀ c, rest.head? = some c → c.isDigit = false)
    (hpre : u.isPrefixOf (if ws then rest.dropWhile Char.isWhitespace else rest) = true) :
    scanUnit ws u (ds ++ rest) = some (natOfDigits ds) := by
  cases ds with
  | nil => exact absurd rfl hne
  | cons d ds' =>
    have hd : d.isDigit = true := hdig d (by simp)
    have ht : ((d :: ds') ++ rest).takeWhile Char.isDigit = d :: ds' := by
      rw [takeWhile_append_all hdig, takeWhile_eq_nil_of_head Char.isDigit hhead, List.append_nil]
    have hdr : ((d :: ds') ++ rest).dropWhile Char.isDigit = rest := by
      rw [dropWhile_append_all hdig, dropWhile_eq_self_of_head Char.isDigit hhead]
    simp only [List.cons_append] at ht hdr ⊢
    simp only [scanUnit, hd, if_true, ht, hdr, hpre]

/-- The scanner falls through a digit run whose following unit check fails,
resuming after the run. -/
theorem scanUnit_run_fail (ws : Bool) (u : List Char) {ds : List Char} (rest : List Char)
    (hdig : ∀ c ∈ ds, c.isDigit = true)
    (hpre : u.isPrefixOf
      (if ws then (rest.dropWhile Char.isDigit).dropWhile Char.isWhitespace
       else rest.dropWhile Char.isDigit) = false) :
    scanUnit ws u (ds ++ rest) = scanUnit ws u rest := by
  induction ds with
  | nil => rfl
  | cons d ds' ih =>
    have hd : d.isDigit = true := hdig d (by simp)
    have hall : ∀ c ∈ ds', c.isDigit = true := fun x hx => hdig x (List.mem_cons_of_mem _ hx)
    have hdr : ((d :: ds') ++ rest).dropWhile Char.isDigit = rest.dropWhile Char.isDigit :=
      dropWhile_append_all hdig
    simp only [List.cons_append] at hdr ⊢
    simp only [scanUnit, hd, if_true, hdr, hpre, Bool.false_eq_true, if_false]
    exact ih hall

/-- Characters produced by `digitChar` on `d < 10` are decimal digits. -/
theorem digitChar_isDigit {d : ℕ} (h : d < 10) : (digitChar d).isDigit = true := by
  interval_cases d <;> decide

/-- Numeric value of a `digitChar`. -/
theorem digitChar_toNat {d : ℕ} (h : d < 10) : (digitChar d).toNat - 48 = d := by
  interval_cases d <;> decide

/-- Appending one digit multiplies the accumulated value by ten. -/
theorem natOfDigits_append (l : List Char) (c : Char) :
    natOfDigits (l ++ [c]) = 10 * natOfDigits l + (c.toNat - 48) := by
  simp [natOfDigits, List.foldl_append]

/-- Specification of `natDigitsAux` under sufficient fuel: all digits,
non-empty, and the decimal value is the number itself. -/
theorem natDigitsAux_spec :
    ∀ f n, n < f →
      (∀ c ∈ natDigitsAux f n, c.isDigit = true) ∧ natDigitsAux f n ≠ [] ∧
        natOfDigits (natDigitsAux f n) = n := by
  intro f
  induction f with
  | zero => intro n h; omega
  | succ f ih =>
    intro n hn
    by_cases h10 : n < 10
    · refine ⟨?_, ?_, ?_⟩ <;> simp [natDigitsAux, h10]
      · exact digitChar_isDigit h10
      · show natOfDigits [digitChar n] = n
        have : natOfDigits [digitChar n] = 10 * 0 + ((digitChar n).toNat - 48) := rfl
        rw [this, digitChar_toNat h10]; omega
    · have hdiv : n / 10 < f := by omega
      obtain ⟨ih1, ih2, ih3⟩ := ih (n / 10) hdiv
      refine ⟨?_, ?_, ?_⟩ <;> simp only [natDigitsAux, h10, if_false]
      · intro c hc
        rcases List.mem_append.mp hc with hc | hc
        · exact ih1 c hc
        · rcases List.mem_singleton.mp hc with rfl
          exact digitChar_isDigit (Nat.mod_lt _ (by omega))
      · simp
      · rw [natOfDigits_append, ih3, digitChar_toNat (Nat.mod_lt _ (by omega))]
        omega

/-- All characters of `natDigits n` are decimal digits. -/
theorem natDigits_all_digit (n : ℕ) : ∀ c ∈ natDigits n, c.isDigit = true :=
  (natDigitsAux_spec (n + 1) n (by omega)).1

/-- The rendering of a natural number is non-empty. -/
theorem natDigits_ne_nil (n : ℕ) : natDigits n ≠ [] :=
  (natDigitsAux_spec (n + 1) n (by omega)).2.1

/-- Round-trip: reading back the decimal rendering gives the number. -/
theorem natOfDigits_natDigits (n : ℕ) : natOfDigits (natDigits n) = n :=
  (natDigitsAux_spec (n + 1) n (by omega)).2.2

/-- The fuel loop counts exactly the weekday members of the corresponding
half-open range of day indices. -/
theorem weekdayGo_eq_filter :
    ∀ f cur : ℕ, weekdayGo f cur =
      ((List.range' cur f).filter (fun d => decide (d % 7 < 5))).length := by
  intro f
  induction f with
  | zero => intro cur; rfl
  | succ f ih =>
    intro cur
    rw [List.range'_succ]
    by_cases h : cur % 7 < 5 <;>
      simp [weekdayGo, List.filter_cons, h, ih (cur + 1)] <;> omega

/-- The analyze phase's inline loop computes the same function as
`count_weekdays`. -/
theorem scenarioWeekdayGo_eq : ∀ f cur : ℕ, scenarioWeekdayGo f cur = weekdayGo f cur := by
  intro f
  induction f with
  | zero => intro cur; rfl
  | succ f ih => intro cur; simp [scenarioWeekdayGo, weekdayGo, ih (cur + 1)]

/-- `count_weekdays` as an explicit filter over the inclusive date range. -/
theorem count_weekdays_eq_filter (s e : ℕ) :
    count_weekdays s e =
      ((List.range' s (e + 1 - s)).filter (fun d => decide (d % 7 < 5))).length :=
  weekdayGo_eq_filter _ _

/-- `scenarioWeekdayLoop` agrees with `count_weekdays` everywhere. -/
theorem scenarioWeekdayLoop_eq_count_weekdays (s e : ℕ) :
    scenarioWeekdayLoop s e = count_weekdays s e :=
  scenarioWeekdayGo_eq _ _

/-- Extending the trip end date can only add counted days. -/
theorem count_weekdays_mono (s : ℕ) {e1 e2 : ℕ} (h : e1 ≤ e2) :
    count_weekdays s e1 ≤ count_weekdays s e2 := by
  rw [count_weekdays_eq_filter, count_weekdays_eq_filter]
  have hm : e1 + 1 - s ≤ e2 + 1 - s := by omega
  have hsplit : List.range' s (e2 + 1 - s) =
      List.range' s (e1 + 1 - s) ++
        List.range' (s + 1 * (e1 + 1 - s)) ((e2 + 1 - s) - (e1 + 1 - s)) := by
    rw [List.range'_append]
    congr 1
    omega
  rw [hsplit, List.filter_append, List.length_append]
  exact Nat.le_add_right _ _

/-- A left fold of float addition over finite values, from a finite seed,
stays finite. -/
theorem foldl_add_val {l : List PyFloat} (h : ∀ x ∈ l, ∃ q : ℚ, x = .val q) :
    ∀ a : ℚ, ∃ q : ℚ, l.foldl PyFloat.add (.val a) = .val q := by
  induction l with
  | nil => exact fun a => ⟨a, rfl⟩
  | cons x xs ih =>
    intro a
    obtain ⟨qx, rfl⟩ := h x (by simp)
    exact ih (fun y hy => h y (List.mem_cons_of_mem _ hy)) (a + qx)

/-- A Python `sum` of finite floats is finite. -/
theorem sumPyFloat_val {l : List PyFloat} (h : ∀ x ∈ l, ∃ q : ℚ, x = .val q) :
    ∃ q : ℚ, sumPyFloat l = .val q :=
  foldl_add_val h 0

/-- Score of a leg with a finite price, as an explicit rational. -/
theorem FlightLeg.score_val {l : FlightLeg} {q : ℚ} (h : l.price = .val q) :
    l.score = .val (q + l.duration_hours * COST_PER_HOUR + (l.stops : ℚ) * COST_PER_STOP) := by
  simp [FlightLeg.score, h, PyFloat.add]

/-- Total score of an itinerary whose legs all have finite prices is finite. -/
theorem Itinerary.total_score_val {i : Itinerary}
    (h : ∀ l ∈ i.legs, ∃ q : ℚ, l.price = .val q) :
    ∃ q : ℚ, i.total_score = .val q := by
  have hside : ∀ x ∈ i.legs.map (·.score), ∃ q : ℚ, x = .val q := by
    intro x hx
    obtain ⟨l, hl, rfl⟩ := List.mem_map.mp hx
    obtain ⟨p, hp⟩ := h l hl
    exact ⟨_, FlightLeg.score_val hp⟩
  obtain ⟨q, hq⟩ := sumPyFloat_val hside
  exact ⟨q + i.childcare_cost,
    by simp [Itinerary.total_score, Itinerary.flight_score, hq, PyFloat.add]⟩

/-- Strictly below `inf` means `-inf` or finite. -/
theorem PyFloat.lt_inf_iff {p : PyFloat} :
    PyFloat.lt p .inf = true ↔ p = .ninf ∨ ∃ q : ℚ, p = .val q := by
  cases p <;> simp [PyFloat.lt]

/-- On floats strictly below `inf` (hence not NaN), the total sort-key order
implies the genuine IEEE `<=`. -/
theorem keyLE_imp_le_of_lt_inf {a b : PyFloat}
    (ha : PyFloat.lt a .inf = true) (hb : PyFloat.lt b .inf = true)
    (h : PyFloat.keyLE a b = true) : PyFloat.le a b = true := by
  cases a <;> cases b <;> simp_all [PyFloat.lt, PyFloat.keyLE, PyFloat.le]

/-- Finite values are strictly below `inf`. -/
theorem PyFloat.val_lt_inf (q : ℚ) : PyFloat.lt (.val q) .inf = true := rfl

/-- Sortedness by the key order yields pairwise IEEE `<=` as soon as every
element's key is strictly below `inf`. -/
theorem pairwise_le_of_sorted_key {α : Type} (k : α → PyFloat) {l : List α}
    (hs : List.Sorted (byKeyLE k) l) (hf : ∀ x ∈ l, PyFloat.lt (k x) .inf = true) :
    l.Pairwise (fun a b => PyFloat.le (k a) (k b) = true) :=
  List.Pairwise.imp_of_mem
    (fun {a b} ha hb hr => keyLE_imp_le_of_lt_inf (hf a ha) (hf b hb) hr) hs

/-- A leg produced from a one-way Duffel offer carries the finite price
`total_amount or 0`. -/
theorem duffelOfferToLeg_price {f t : String} {d : ℕ} {o : DuffelOffer} {l : FlightLeg}
    (h : duffelOfferToLeg f t d o = some l) : l.price = .val (o.total_amount.getD 0) := by
  rcases hsl : o.slices with _ | ⟨sl, tl⟩ <;> simp [duffelOfferToLeg, hsl] at h
  by_cases hseg : sl.segments = []
  · simp [hseg] at h
  · simp [hseg] at h
    subst h
    rfl

/-- The outbound half of a round-trip offer carries the finite half price. -/
theorem rtOutboundLeg_price {f t : String} {d : ℕ} {o : DuffelOffer} {l : FlightLeg}
    (h : rtOutboundLeg f t d o = some l) : l.price = .val (o.total_amount.getD 0 / 2) := by
  rcases hsl : o.slices with _ | ⟨s1, _ | ⟨s2, _ | ⟨s3, tl⟩⟩⟩ <;>
    simp [rtOutboundLeg, hsl] at h
  by_cases hseg : s1.segments = []
  · simp [hseg] at h
  · simp [hseg] at h
    subst h
    rfl

/-- The return half of a round-trip offer carries the finite half price. -/
theorem rtReturnLeg_price {f t : String} {d : ℕ} {o : DuffelOffer} {l : FlightLeg}
    (h : rtReturnLeg f t d o = some l) : l.price = .val (o.total_amount.getD 0 / 2) := by
  rcases hsl : o.slices with _ | ⟨s1, _ | ⟨s2, _ | ⟨s3, tl⟩⟩⟩ <;>
    simp [rtReturnLeg, hsl] at h
  by_cases hseg : s2.segments = []
  · simp [hseg] at h
  · simp [hseg] at h
    subst h
    rfl

/-- Membership in the one-way Duffel candidate list implies a finite price. -/
theorem mem_search_flights_duffel_price {offers : List DuffelOffer} {f t : String}
    {d : ℕ} {l : FlightLeg} (h : l ∈ search_flights_duffel offers f t d) :
    ∃ q : ℚ, l.price = .val q := by
  unfold search_flights_duffel at h
  have h1 : l ∈ ((offers.filterMap (duffelOfferToLeg f t d)).filter
      (·.passes_constraints)).insertionSort (byKeyLE FlightLeg.score) :=
    (List.take_sublist _ _).subset h
  have h2 := (List.perm_insertionSort (byKeyLE FlightLeg.score) _).subset h1
  have h3 := List.mem_of_mem_filter h2
  obtain ⟨o, _, ho⟩ := List.mem_filterMap.mp h3
  exact ⟨_, duffelOfferToLeg_price ho⟩

/-- Membership in either round-trip candidate list implies a finite price. -/
theorem mem_search_roundtrip_duffel_price {offers : List DuffelOffer} {f t : String}
    {d1 d2 : ℕ} {l : FlightLeg}
    (h : l ∈ (search_roundtrip_duffel offers f t d1 d2).1 ∨
         l ∈ (search_roundtrip_duffel offers f t d1 d2).2) :
    ∃ q : ℚ, l.price = .val q := by
  unfold search_roundtrip_duffel at h
  rcases h with h | h
  all_goals {
    have h1 := (List.take_sublist _ _).subset h
    have h2 := (List.perm_insertionSort (byKeyLE FlightLeg.score) _).subset h1
    have h3 := List.mem_of_mem_filter h2
    first
    | obtain ⟨o, _, ho⟩ := List.mem_filterMap.mp h3
      exact ⟨_, rtOutboundLeg_price ho⟩
    | obtain ⟨o, _, ho⟩ := List.mem_filterMap.mp h3
      exact ⟨_, rtReturnLeg_price ho⟩
  }

/-- Truncated sorted output is pairwise IEEE-`<=`-ordered on the key, given
that every input key is strictly below `inf`. -/
theorem sorted_take_pairwise {α : Type} (k : α → PyFloat) (n : ℕ) {l : List α}
    (hfin : ∀ x ∈ l, PyFloat.lt (k x) .inf = true) :
    ((l.insertionSort (byKeyLE k)).take n).Pairwise
      (fun a b => PyFloat.le (k a) (k b) = true) := by
  have hs : List.Pairwise (byKeyLE k) (l.insertionSort (byKeyLE k)) :=
    List.sorted_insertionSort (byKeyLE k) l
  have hp := List.Pairwise.sublist (List.take_sublist n _) hs
  refine List.Pairwise.imp_of_mem ?_ hp
  intro a b ha hb hr
  have ha' : a ∈ l :=
    (List.perm_insertionSort (byKeyLE k) l).subset ((List.take_sublist n _).subset ha)
  have hb' : b ∈ l :=
    (List.perm_insertionSort (byKeyLE k) l).subset ((List.take_sublist n _).subset hb)
  exact keyLE_imp_le_of_lt_inf (hfin a ha') (hfin b hb') hr

/-- The one-way Duffel candidate list is at most 20 long and ascending in
`score()` under the genuine IEEE comparison. -/
theorem search_flights_duffel_spec (offers : List DuffelOffer) (f t : String) (d : ℕ) :
    (search_flights_duffel offers f t d).length ≤ 20 ∧
      (search_flights_duffel offers f t d).Pairwise
        (fun a b => PyFloat.le a.score b.score = true) := by
  constructor
  · unfold search_flights_duffel
    simp [List.length_take]
  · unfold search_flights_duffel
    apply sorted_take_pairwise FlightLeg.score 20
    intro x hx
    have h3 := List.mem_of_mem_filter hx
    obtain ⟨o, _, ho⟩ := List.mem_filterMap.mp h3
    rw [FlightLeg.score_val (duffelOfferToLeg_price ho)]
    exact PyFloat.val_lt_inf _

/-- Both round-trip Duffel candidate lists are at most 20 long and ascending
in `score()` under the genuine IEEE comparison. -/
theorem search_roundtrip_duffel_spec (offers : List DuffelOffer) (f t : String)
    (d1 d2 : ℕ) :
    ((search_roundtrip_duffel offers f t d1 d2).1.length ≤ 20 ∧
      (search_roundtrip_duffel offers f t d1 d2).1.Pairwise
        (fun a b => PyFloat.le a.score b.score = true)) ∧
    ((search_roundtrip_duffel offers f t d1 d2).2.length ≤ 20 ∧
      (search_roundtrip_duffel offers f t d1 d2).2.Pairwise
        (fun a b => PyFloat.le a.score b.score = true)) := by
  refine ⟨⟨?_, ?_⟩, ⟨?_, ?_⟩⟩
  · unfold search_roundtrip_duffel
    simp [List.length_take]
  · unfold search_roundtrip_duffel
    apply sorted_take_pairwise FlightLeg.score 20
    intro x hx
    have h3 := List.mem_of_mem_filter hx
    obtain ⟨o, _, ho⟩ := List.mem_filterMap.mp h3
    rw [FlightLeg.score_val (rtOutboundLeg_price ho)]
    exact PyFloat.val_lt_inf _
  · unfold search_roundtrip_duffel
    simp [List.length_take]
  · unfold search_roundtrip_duffel
    apply sorted_take_pairwise FlightLeg.score 20
    intro x hx
    have h3 := List.mem_of_mem_filter hx
    obtain ⟨o, _, ho⟩ := List.mem_filterMap.mp h3
    rw [FlightLeg.score_val (rtReturnLeg_price ho)]
    exact PyFloat.val_lt_inf _

/-- The analyze-phase route list is ascending in the price field under the
genuine IEEE comparison. -/
theorem get_flights_for_route_sorted_price (g : List GoogleFlightRec)
    (d : List DuffelCachedOffer) (o t : String) (dt : ℕ) :
    (get_flights_for_route g d o t dt).Pairwise
      (fun a b => PyFloat.le a.price b.price = true) := by
  unfold get_flights_for_route
  apply pairwise_le_of_sorted_key Flight.price (List.sorted_insertionSort _ _)
  intro x hx
  have hx' := (List.perm_insertionSort _ _).subset hx
  rcases List.mem_append.mp hx' with h | h <;>
    exact (Bool.and_eq_true _ _ ▸ (List.mem_filter.mp h).2).2

/-- The analyze-phase route list keeps every accepted record: its length is
the number of accepted Google records plus the number of accepted Duffel
records — there is no top-20 truncation. -/
theorem get_flights_for_route_length (g : List GoogleFlightRec)
    (d : List DuffelCachedOffer) (o t : String) (dt : ℕ) :
    (get_flights_for_route g d o t dt).length =
      ((g.map (googleRecFlight o t dt)).filter
        (fun fl => fl.passes_constraints && PyFloat.lt fl.price .inf)).length +
      ((d.map (duffelCachedFlight o t dt)).filter
        (fun fl => fl.passes_constraints && PyFloat.lt fl.price .inf)).length := by
  unfold get_flights_for_route
  rw [(List.perm_insertionSort _ _).length_eq, List.length_append]

/-- C1: for every `Itinerary` and every `Scenario`, the total score equals
the sum over the legs of (price + durationHours * 20 + stops * 200) plus
(weekday count of the closed trip date range) * 200, exactly — for the
analyze phase the weekday count is the day-by-day enumeration from
`depart_date` to `return_date`, shown equal to `count_weekdays`. -/
theorem c1_total_score_decomposition :
    (∀ I : Itinerary, I.total_score =
      (sumPyFloat (I.legs.map fun l =>
        (l.price.add (.val (l.duration_hours * 20))).add
          (.val ((l.stops : ℚ) * 200)))).add (.val ((I.weekdays : ℚ) * 200)))
    ∧ ∀ S : Scenario, S.total_score =
      (sumPyFloat (S.legs.map fun f =>
        (f.price.add (.val (f.duration_hours * 20))).add
          (.val ((f.stops : ℚ) * 200)))).add
        (.val ((count_weekdays S.depart_date S.return_date : ℚ) * 200)) := by
  constructor
  · intro I
    rfl
  · intro S
    show (sumPyFloat (S.legs.map (·.score))).add (.val S.childcare_cost) = _
    rw [show S.childcare_cost = (S.weekdays : ℚ) * COST_PER_WEEKDAY from rfl,
      show S.weekdays = scenarioWeekdayLoop S.depart_date S.return_date from rfl,
      scenarioWeekdayLoop_eq_count_weekdays]
    rfl

/-- C9: `count_weekdays` counts exactly the Monday-to-Friday dates of the
closed range from start to end (as a filter over the enumerated range), and
is monotonically non-decreasing in the trip length. -/
theorem c9_weekday_count :
    (∀ s e : ℕ, count_weekdays s e =
      ((List.range' s (e + 1 - s)).filter (fun d => decide (d % 7 < 5))).length)
    ∧ ∀ s e1 e2 : ℕ, e1 ≤ e2 → count_weekdays s e1 ≤ count_weekdays s e2 :=
  ⟨count_weekdays_eq_filter, fun s _ _ h => count_weekdays_mono s h⟩

/-- Witness for C9 at the concrete range 5..33 (a Saturday-to-Sunday span
when day 5 is a Saturday). -/
theorem c9_weekday_count_witness :
    count_weekdays 5 33 =
      ((List.range' 5 (33 + 1 - 5)).filter (fun d => decide (d % 7 < 5))).length
    ∧ count_weekdays 5 10 ≤ count_weekdays 5 33 :=
  ⟨c9_weekday_count.1 5 33, c9_weekday_count.2 5 10 33 (by decide)⟩

/-- C2 counterexample: `negPriceLeg` has a negative finite price (not "valid"
in the claim's sense of finite and non-negative) yet passes the constraint
check, because the code only rejects `price == float('inf')`; and
`testAirFlight` satisfies all three predicates named by the claim (stops,
single carrier, valid price) yet fails the analyze-phase check because of
the excluded-carrier denylist — so the claimed equivalence is false in both
directions. -/
theorem c2_counterexample :
    (negPriceLeg.passes_constraints = true ∧ ¬ specPriceValid negPriceLeg.price)
    ∧ (testAirFlight.passes_constraints = false ∧ testAirFlight.stops ≤ MAX_STOPS
        ∧ ',' ∉ testAirFlight.airline.toList ∧ specPriceValid testAirFlight.price) := by
  refine ⟨⟨by decide, ?_⟩, by decide, by decide, by decide, ⟨100, rfl, by norm_num⟩⟩
  rintro ⟨q, hq, h0⟩
  have : (-5 : ℚ) = q := by
    have := congrArg (fun p => match p with | PyFloat.val r => r | _ => 0) hq
    simpa using this
  rw [← this] at h0
  norm_num at h0

/-- C2 amended: `FlightLeg.passes_constraints` is true iff stops are at most
the maximum, the carrier field has no comma, and the price is not the `inf`
sentinel (negative, NaN and `-inf` prices are not rejected); the
analyze-phase `Flight.passes_constraints` is true iff stops, single carrier,
no excluded-carrier fragment, and any known layover within the maximum — it
never examines the price. -/
theorem c2_amended :
    (∀ l : FlightLeg, l.passes_constraints = true ↔
      l.stops ≤ MAX_STOPS ∧ ',' ∉ l.airline.toList ∧ l.price ≠ .inf)
    ∧ ∀ f : Flight, f.passes_constraints = true ↔
      (f.stops ≤ MAX_STOPS ∧ ',' ∉ f.airline.toList ∧
        (∀ p ∈ EXCLUDED_AIRLINE_PATTERNS,
          containsSub (f.airline.toList.map Char.toLower) (p.toList.map Char.toLower) = false) ∧
        ∀ q : ℚ, f.max_layover_hours = some q → q ≤ MAX_LAYOVER_HOURS) := by
  constructor
  · intro l
    unfold FlightLeg.passes_constraints
    split_ifs with h1 h2 h3 <;> simp_all
  · intro f
    unfold Flight.passes_constraints
    split_ifs with h1 h2 h3 <;>
      simp_all [List.any_eq_true, Bool.not_eq_true] <;>
      try omega
    cases hml : f.max_layover_hours with
    | none => simp [hml]
    | some q => simp [hml, not_lt]

/-- Witness for C2's amended equivalences at concrete legs that pass. -/
theorem c2_amended_witness :
    plainGoodLeg.passes_constraints = true ∧ defaultFlight.passes_constraints = true :=
  ⟨(c2_amended.1 plainGoodLeg).mpr ⟨by decide, by decide, by decide⟩,
   (c2_amended.2 defaultFlight).mpr
     ⟨by decide, by decide, by decide, fun q h => Option.noConfusion h⟩⟩

/-- C7: for both strategies — in both the live optimizer and the analyze
phase — an empty required candidate list makes the grid point produce zero
itineraries, and every itinerary that is produced has exactly as many legs
as its strategy requires (3 sequential, 4 paired round-trip): no partial
itinerary is ever emitted. -/
theorem c7_fails_closed :
    (∀ d en ind : ℕ, ∀ l1 l2 l3 : List FlightLeg, l1 = [] ∨ l2 = [] ∨ l3 = [] →
      search_trip_option d en ind l1 l2 l3 = [])
    ∧ (∀ d en ind : ℕ, ∀ a b c e : List FlightLeg,
        a = [] ∨ b = [] ∨ c = [] ∨ e = [] →
        search_round_trip_strategy d en ind a b c e = [])
    ∧ (∀ d en ind : ℕ, ∀ f1 f2 f3 : List Flight, f1 = [] ∨ f2 = [] ∨ f3 = [] →
        buildScenarioOneWay d en ind f1 f2 f3 = [])
    ∧ (∀ d en ind : ℕ, ∀ g1 g2 g3 g4 : List Flight,
        g1 = [] ∨ g2 = [] ∨ g3 = [] ∨ g4 = [] →
        buildScenarioRoundTrip d en ind g1 g2 g3 g4 = [])
    ∧ (∀ d en ind : ℕ, ∀ l1 l2 l3 : List FlightLeg,
        ∀ I ∈ search_trip_option d en ind l1 l2 l3, I.legs.length = 3)
    ∧ (∀ d en ind : ℕ, ∀ a b c e : List FlightLeg,
        ∀ I ∈ search_round_trip_strategy d en ind a b c e, I.legs.length = 4) := by
  refine ⟨?_, ?_, ?_, ?_, ?_, ?_⟩
  · intro d en ind l1 l2 l3 h
    rw [search_trip_option, if_pos h]
  · intro d en ind a b c e h
    rw [search_round_trip_strategy, if_pos h]
  · intro d en ind f1 f2 f3 h
    rw [buildScenarioOneWay, if_neg (by tauto)]
  · intro d en ind g1 g2 g3 g4 h
    rw [buildScenarioRoundTrip, if_neg (by tauto)]
  · intro d en ind l1 l2 l3 I hI
    rw [search_trip_option] at hI
    by_cases hg : l1 = [] ∨ l2 = [] ∨ l3 = []
    · rw [if_pos hg] at hI
      simp at hI
    · rw [if_neg hg] at hI
      have h2 := (List.perm_insertionSort _ _).subset ((List.take_sublist _ _).subset hI)
      simp only [tripCombos, List.mem_flatMap, List.mem_map] at h2
      obtain ⟨x, _, y, _, z, _, rfl⟩ := h2
      rfl
  · intro d en ind a b c e I hI
    rw [search_round_trip_strategy] at hI
    by_cases hg : a = [] ∨ b = [] ∨ c = [] ∨ e = []
    · rw [if_pos hg] at hI
      simp at hI
    · rw [if_neg hg] at hI
      have h2 := (List.perm_insertionSort _ _).subset ((List.take_sublist _ _).subset hI)
      simp only [rtCombos, List.mem_flatMap, List.mem_map] at h2
      obtain ⟨x, _, y, _, rfl⟩ := h2
      rfl

/-- Witness for C7: concrete empty-list grid points produce no itineraries,
and the one itinerary built from singleton candidate lists has 3 legs. -/
theorem c7_fails_closed_witness :
    search_trip_option 0 21 6 [] [plainGoodLeg] [plainGoodLeg] = []
    ∧ search_round_trip_strategy 0 21 6 [plainGoodLeg] [] [plainGoodLeg] [plainGoodLeg] = []
    ∧ buildScenarioOneWay 0 21 6 [] [] [] = []
    ∧ buildScenarioRoundTrip 0 21 6 [] [] [] [] = []
    ∧ (Itinerary.legs
        { legs := [plainGoodLeg, plainGoodLeg, plainGoodLeg], depart_date := 0,
          return_date := 28, europe_nights := 21, india_nights := 6,
          weekdays := count_weekdays 0 28, source := "google_flights" }).length = 3 :=
  ⟨c7_fails_closed.1 0 21 6 _ _ _ (Or.inl rfl),
   c7_fails_closed.2.1 0 21 6 _ _ _ _ (Or.inr (Or.inl rfl)),
   c7_fails_closed.2.2.1 0 21 6 _ _ _ (Or.inl rfl),
   c7_fails_closed.2.2.2.1 0 21 6 _ _ _ _ (Or.inl rfl),
   c7_fails_closed.2.2.2.2.1 0 21 6 [plainGoodLeg] [plainGoodLeg] [plainGoodLeg] _
     (by decide)⟩

/-- C3 counterexample: a Duffel offer lacking `total_amount` yields a leg
with silently-defaulted price 0 that does enter the candidate list, because
`float(offer.get('total_amount', 0))` turns the missing field into 0 and the
constraint check does not reject it. -/
theorem c3_counterexample :
    noAmountOffer.total_amount = none
    ∧ (search_flights_duffel [noAmountOffer] "SEA" "MXP" 0).map (·.price) = [.val 0] :=
  ⟨rfl, by decide⟩

/-- C3 amended: every leg the Duffel adapters construct carries a finite
price (`total_amount or 0`, halved for round-trip halves) — never the `inf`
sentinel — but an offer lacking `total_amount` yields a price-0 leg that
enters the candidate list when its other constraints pass. -/
theorem c3_amended :
    (∀ (offers : List DuffelOffer) (f t : String) (d : ℕ),
      ∀ l ∈ search_flights_duffel offers f t d, ∃ q : ℚ, l.price = .val q)
    ∧ (∀ (offers : List DuffelOffer) (f t : String) (d1 d2 : ℕ) (l : FlightLeg),
        (l ∈ (search_roundtrip_duffel offers f t d1 d2).1 ∨
         l ∈ (search_roundtrip_duffel offers f t d1 d2).2) → ∃ q : ℚ, l.price = .val q)
    ∧ (search_flights_duffel [noAmountOffer] "SEA" "MXP" 0).map (·.price) = [.val 0] :=
  ⟨fun _ _ _ _ _ h => mem_search_flights_duffel_price h,
   fun _ _ _ _ _ _ h => mem_search_roundtrip_duffel_price h,
   by decide⟩

/-- Witness for C3's amended claim at a concrete priced offer. -/
theorem c3_amended_witness :
    ∃ q : ℚ,
      ((search_flights_duffel [pricedOffer] "SEA" "MXP" 0).headD defaultLeg).price = .val q :=
  c3_amended.1 [pricedOffer] "SEA" "MXP" 0 _ (by decide)

/-- C4 counterexample: for `rtBadOffer` (total 1000, nonstop outbound,
two-stop return) the outbound half — priced 500 — enters the outbound
candidate list even though the return half of the same offer fails
`passes_constraints()`: the two halves are admitted independently, not
jointly as the claim states. -/
theorem c4_counterexample :
    (search_roundtrip_duffel [rtBadOffer] "SEA" "MXP" 0 30).1.map (·.price) = [.val 500]
    ∧ (search_roundtrip_duffel [rtBadOffer] "SEA" "MXP" 0 30).2 = []
    ∧ (rtReturnLeg "SEA" "MXP" 30 rtBadOffer).map (·.passes_constraints) = some false :=
  ⟨by decide, by decide, by decide⟩

/-- C4 amended: a two-slice round-trip offer with total price P yields one
outbound and one return leg each priced exactly P / 2, and each half enters
its own candidate list iff it independently satisfies
`passes_constraints()` — the failure of one half does not keep the other
half out. -/
theorem c4_amended (o : DuffelOffer) (s1 s2 : DuffelSlice) (P : ℚ) (f t : String)
    (d1 d2 : ℕ) (hs : o.slices = [s1, s2]) (hP : o.total_amount = some P)
    (h1 : s1.segments ≠ []) (h2 : s2.segments ≠ []) :
    (duffelSliceLeg f t d1 s1 (P / 2)).price = .val (P / 2)
    ∧ (duffelSliceLeg t f d2 s2 (P / 2)).price = .val (P / 2)
    ∧ (search_roundtrip_duffel [o] f t d1 d2).1 =
        (if (duffelSliceLeg f t d1 s1 (P / 2)).passes_constraints then
          [duffelSliceLeg f t d1 s1 (P / 2)] else [])
    ∧ (search_roundtrip_duffel [o] f t d1 d2).2 =
        (if (duffelSliceLeg t f d2 s2 (P / 2)).passes_constraints then
          [duffelSliceLeg t f d2 s2 (P / 2)] else []) := by
  have hout : rtOutboundLeg f t d1 o = some (duffelSliceLeg f t d1 s1 (P / 2)) := by
    simp [rtOutboundLeg, hs, h1, hP]
  have hret : rtReturnLeg f t d2 o = some (duffelSliceLeg t f d2 s2 (P / 2)) := by
    simp [rtReturnLeg, hs, h2, hP]
  refine ⟨rfl, rfl, ?_, ?_⟩
  · unfold search_roundtrip_duffel
    simp only [List.filterMap_cons, List.filterMap_nil, hout]
    by_cases hp : (duffelSliceLeg f t d1 s1 (P / 2)).passes_constraints = true <;>
      simp [hp, List.filter, List.insertionSort, List.orderedInsert]
  · unfold search_roundtrip_duffel
    simp only [List.filterMap_cons, List.filterMap_nil, hret]
    by_cases hp : (duffelSliceLeg t f d2 s2 (P / 2)).passes_constraints = true <;>
      simp [hp, List.filter, List.insertionSort, List.orderedInsert]

/-- Witness for C4's amended claim: the spec's own scenario — a round-trip
offer with total 1000 yields two candidate legs priced 1000 / 2 = 500. -/
theorem c4_amended_witness :
    (duffelSliceLeg "SEA" "MXP" 0
      { segments := [{ marketing_carrier_name := "Delta" }], duration := "PT9H" }
      (1000 / 2)).price = .val (1000 / 2)
    ∧ (duffelSliceLeg "MXP" "SEA" 30
        { segments := [{ marketing_carrier_name := "Delta" }], duration := "PT10H" }
        (1000 / 2)).price = .val (1000 / 2)
    ∧ (search_roundtrip_duffel [rtGoodOffer] "SEA" "MXP" 0 30).1 =
        (if (duffelSliceLeg "SEA" "MXP" 0
            { segments := [{ marketing_carrier_name := "Delta" }], duration := "PT9H" }
            (1000 / 2)).passes_constraints then
          [duffelSliceLeg "SEA" "MXP" 0
            { segments := [{ marketing_carrier_name := "Delta" }], duration := "PT9H" }
            (1000 / 2)] else [])
    ∧ (search_roundtrip_duffel [rtGoodOffer] "SEA" "MXP" 0 30).2 =
        (if (duffelSliceLeg "MXP" "SEA" 30
            { segments := [{ marketing_carrier_name := "Delta" }], duration := "PT10H" }
            (1000 / 2)).passes_constraints then
          [duffelSliceLeg "MXP" "SEA" 30
            { segments := [{ marketing_carrier_name := "Delta" }], duration := "PT10H" }
            (1000 / 2)] else []) :=
  c4_amended rtGoodOffer _ _ 1000 "SEA" "MXP" 0 30 rfl rfl (by decide) (by decide)

/-- C5 counterexample: with one cheap-but-slow and one pricey-but-fast cached
record, the analyze-phase route list comes back ordered by price — scores
`[1300, 200]`, descending — so it is not sorted ascending by `score()`; and
21 accepted cached offers come back as 21 candidates, so there is no top-20
truncation either. -/
theorem c5_counterexample :
    (get_flights_for_route [cheapSlowRec, fastPriceyRec] [] "SEA" "MXP" 0).map (·.score) =
      [.val 1300, .val 200]
    ∧ PyFloat.le (.val 1300) (.val 200) = false
    ∧ (get_flights_for_route []
        ((List.range 21).map fun i => { airline := "AirX", price := some (i : ℚ) })
        "SEA" "MXP" 0).length = 21 :=
  ⟨by decide, by decide, by decide⟩

/-- C5 amended: the optimizer's Duffel adapters (`search_flights_duffel`,
`search_roundtrip_duffel`) return candidate lists sorted ascending by
`score()` and truncated to at most 20; the analyze phase's
`get_flights_for_route` instead sorts by the price field alone and keeps
every accepted record (its length is the full accepted count, with no
top-20 truncation). -/
theorem c5_amended :
    (∀ (offers : List DuffelOffer) (f t : String) (d : ℕ),
      (search_flights_duffel offers f t d).length ≤ 20
      ∧ (search_flights_duffel offers f t d).Pairwise
          (fun a b => PyFloat.le a.score b.score = true))
    ∧ (∀ (offers : List DuffelOffer) (f t : String) (d1 d2 : ℕ),
        ((search_roundtrip_duffel offers f t d1 d2).1.length ≤ 20
          ∧ (search_roundtrip_duffel offers f t d1 d2).1.Pairwise
              (fun a b => PyFloat.le a.score b.score = true))
        ∧ ((search_roundtrip_duffel offers f t d1 d2).2.length ≤ 20
          ∧ (search_roundtrip_duffel offers f t d1 d2).2.Pairwise
              (fun a b => PyFloat.le a.score b.score = true)))
    ∧ (∀ (g : List GoogleFlightRec) (d : List DuffelCachedOffer) (o t : String) (dt : ℕ),
        (get_flights_for_route g d o t dt).Pairwise
          (fun a b => PyFloat.le a.price b.price = true))
    ∧ ∀ (g : List GoogleFlightRec) (d : List DuffelCachedOffer) (o t : String) (dt : ℕ),
        (get_flights_for_route g d o t dt).length =
          ((g.map (googleRecFlight o t dt)).filter
            (fun fl => fl.passes_constraints && PyFloat.lt fl.price .inf)).length +
          ((d.map (duffelCachedFlight o t dt)).filter
            (fun fl => fl.passes_constraints && PyFloat.lt fl.price .inf)).length :=
  ⟨search_flights_duffel_spec, search_roundtrip_duffel_spec,
   get_flights_for_route_sorted_price, get_flights_for_route_length⟩

/-- Length of a `flatMap` whose blocks all have the same length. -/
theorem length_flatMap_const {α β : Type} (l : List α) (g : α → List β) (n : ℕ)
    (h : ∀ a ∈ l, (g a).length = n) : (l.flatMap g).length = l.length * n := by
  induction l with
  | nil => simp
  | cons a as ih =>
    simp only [List.flatMap_cons, List.length_append, List.length_cons,
      h a (by simp), ih fun x hx => h x (List.mem_cons_of_mem _ hx)]
    ring

/-- The Strategy A enumeration is the full 5 x 5 x 5 product when every
candidate list has at least five elements. -/
theorem tripCombos_length {l1 l2 l3 : List FlightLeg} (h1 : 5 ≤ l1.length)
    (h2 : 5 ≤ l2.length) (h3 : 5 ≤ l3.length) (d en ind : ℕ) :
    (tripCombos l1 l2 l3 d en ind).length = 125 := by
  unfold tripCombos
  rw [length_flatMap_const _ _ 25]
  · rw [List.length_take]
    omega
  · intro a _
    rw [length_flatMap_const _ _ 5]
    · rw [List.length_take]
      omega
    · intro b _
      rw [List.length_map, List.length_take]
      omega

/-- An itinerary enumerated by Strategy A has a finite total score whenever
every candidate leg's price is finite. -/
theorem tripCombos_total_score_val {l1 l2 l3 : List FlightLeg} {d en ind : ℕ}
    {I : Itinerary} (hfin : ∀ l ∈ l1 ++ l2 ++ l3, ∃ q : ℚ, l.price = .val q)
    (hI : I ∈ tripCombos l1 l2 l3 d en ind) : ∃ q : ℚ, I.total_score = .val q := by
  simp only [tripCombos, List.mem_flatMap, List.mem_map] at hI
  obtain ⟨x, hx, y, hy, z, hz, rfl⟩ := hI
  apply Itinerary.total_score_val
  intro l hl
  simp only [List.mem_cons, List.not_mem_nil, or_false] at hl
  rcases hl with rfl | rfl | rfl
  · exact hfin _ (List.mem_append.mpr (.inl (List.mem_append.mpr
      (.inl (List.take_subset _ _ hx)))))
  · exact hfin _ (List.mem_append.mpr (.inl (List.mem_append.mpr
      (.inr (List.take_subset _ _ hy)))))
  · exact hfin _ (List.mem_append.mpr (.inr (List.take_subset _ _ hz)))

/-- C6: with three candidate lists of at least five legs each (of finite
prices, as every adapter-produced list has), Strategy A enumerates exactly
125 itineraries before truncation; the returned list is the first 10 of the
score-sorted enumeration, has exactly 10 elements, and every returned
itinerary's total score is at most that of every one sorted beyond the
cut — the 10 lowest-scored combinations. -/
theorem c6_sequential_builder (d en ind : ℕ) (l1 l2 l3 : List FlightLeg)
    (h1 : 5 ≤ l1.length) (h2 : 5 ≤ l2.length) (h3 : 5 ≤ l3.length)
    (hfin : ∀ l ∈ l1 ++ l2 ++ l3, ∃ q : ℚ, l.price = .val q) :
    (tripCombos l1 l2 l3 d en ind).length = 125
    ∧ search_trip_option d en ind l1 l2 l3 =
        ((tripCombos l1 l2 l3 d en ind).insertionSort
          (byKeyLE Itinerary.total_score)).take 10
    ∧ (search_trip_option d en ind l1 l2 l3).length = 10
    ∧ ∀ a ∈ search_trip_option d en ind l1 l2 l3,
        ∀ b ∈ ((tripCombos l1 l2 l3 d en ind).insertionSort
          (byKeyLE Itinerary.total_score)).drop 10,
          PyFloat.le a.total_score b.total_score = true := by
  have hg : ¬ (l1 = [] ∨ l2 = [] ∨ l3 = []) := by
    rintro (rfl | rfl | rfl) <;> simp at h1 h2 h3
  have heq : search_trip_option d en ind l1 l2 l3 =
      ((tripCombos l1 l2 l3 d en ind).insertionSort
        (byKeyLE Itinerary.total_score)).take 10 := by
    rw [search_trip_option, if_neg hg]
  have hlen125 := tripCombos_length h1 h2 h3 d en ind
  have hsortlen : ((tripCombos l1 l2 l3 d en ind).insertionSort
      (byKeyLE Itinerary.total_score)).length = 125 := by
    rw [(List.perm_insertionSort _ _).length_eq, hlen125]
  refine ⟨hlen125, heq, ?_, ?_⟩
  · rw [heq, List.length_take, hsortlen]
    omega
  · intro a ha b hb
    rw [heq] at ha
    have hsorted : List.Pairwise (byKeyLE Itinerary.total_score)
        ((tripCombos l1 l2 l3 d en ind).insertionSort (byKeyLE Itinerary.total_score)) :=
      List.sorted_insertionSort _ _
    rw [← List.take_append_drop 10 ((tripCombos l1 l2 l3 d en ind).insertionSort
      (byKeyLE Itinerary.total_score))] at hsorted
    have hp := List.pairwise_append.mp hsorted
    have hkey := hp.2.2 a ha b hb
    have haf := tripCombos_total_score_val hfin
      ((List.perm_insertionSort _ _).subset ((List.take_sublist _ _).subset ha))
    have hbf := tripCombos_total_score_val hfin
      ((List.perm_insertionSort _ _).subset ((List.drop_subset _ _) hb))
    obtain ⟨qa, hqa⟩ := haf
    obtain ⟨qb, hqb⟩ := hbf
    exact keyLE_imp_le_of_lt_inf (by rw [hqa]; exact PyFloat.val_lt_inf _)
      (by rw [hqb]; exact PyFloat.val_lt_inf _) hkey

/-- Witness for C6 at three concrete five-element candidate lists: 125
combinations before truncation and 10 itineraries after. -/
theorem c6_sequential_builder_witness :
    (tripCombos (fiveLegs 1) (fiveLegs 10) (fiveLegs 20) 0 21 6).length = 125
    ∧ (search_trip_option 0 21 6 (fiveLegs 1) (fiveLegs 10) (fiveLegs 20)).length = 10 := by
  have hfin : ∀ l ∈ fiveLegs 1 ++ fiveLegs 10 ++ fiveLegs 20,
      ∃ q : ℚ, l.price = .val q := by
    intro l hl
    simp only [fiveLegs, List.mem_append, List.mem_cons, List.not_mem_nil,
      or_false] at hl
    rcases hl with ((rfl | rfl | rfl | rfl | rfl) | (rfl | rfl | rfl | rfl | rfl)) |
      (rfl | rfl | rfl | rfl | rfl) <;> exact ⟨_, rfl⟩
  have h := c6_sequential_builder 0 21 6 (fiveLegs 1) (fiveLegs 10) (fiveLegs 20)
    (by decide) (by decide) (by decide) hfin
  exact ⟨h.1, h.2.2.1⟩
theorem string_toList_append (a b : String) : (a ++ b).toList = a.toList ++ b.toList := rfl

theorem natStr_toList (n : ℕ) : (natStr n).toList = natDigits n := rfl

theorem natStr_data (n : ℕ) : (natStr n).data = natDigits n := rfl

/-- Character list of the rendered ISO duration `PT{h}H{m}M`. -/
theorem isoRender_toList (h m : ℕ) :
    ("PT" ++ natStr h ++ "H" ++ natStr m ++ "M").toList =
      ['P', 'T'] ++ (natDigits h ++ ('H' :: (natDigits m ++ ['M']))) := by
  simp [string_toList_append, natStr_data]

/-- The `(\d+)H` scan of `PT{h}H{m}M` finds `h`. -/
theorem scanUnit_iso_H (h m : ℕ) :
    scanUnit false ['H'] (['P', 'T'] ++ (natDigits h ++ ('H' :: (natDigits m ++ ['M'])))) =
      some h := by
  rw [scanUnit_skip false _ _ (by decide)]
  rw [scanUnit_found false _ (natDigits_ne_nil h) (natDigits_all_digit h)
    (by intro c hc; simp at hc; subst hc; decide) (by simp [List.isPrefixOf])]
  rw [natOfDigits_natDigits]

/-- The `(\d+)M` scan of `PT{h}H{m}M` finds `m`. -/
theorem scanUnit_iso_M (h m : ℕ) :
    scanUnit false ['M'] (['P', 'T'] ++ (natDigits h ++ ('H' :: (natDigits m ++ ['M'])))) =
      some m := by
  rw [scanUnit_skip false _ _ (by decide)]
  rw [scanUnit_run_fail false _ _ (natDigits_all_digit h) ?hfail]
  case hfail =>
    rw [dropWhile_eq_self_of_head Char.isDigit (by intro c hc; simp at hc; subst hc; decide)]
    simp [List.isPrefixOf]
  show scanUnit false ['M'] (['H'] ++ (natDigits m ++ ['M'])) = some m
  rw [scanUnit_skip false _ _ (by decide)]
  rw [scanUnit_found false _ (natDigits_ne_nil m) (natDigits_all_digit m)
    (by intro c hc; simp at hc; subst hc; decide) (by simp [List.isPrefixOf])]
  rw [natOfDigits_natDigits]

/-- The `(\d+)\s*hr` scan of `{h} hr {m} min` finds `h`. -/
theorem scanUnit_disp_hr_full (h m : ℕ) :
    scanUnit true ['h', 'r']
      (natDigits h ++ (' ' :: 'h' :: 'r' :: ' ' :: (natDigits m ++ [' ', 'm', 'i', 'n']))) =
      some h := by
  rw [scanUnit_found true _ (natDigits_ne_nil h) (natDigits_all_digit h)
    (by intro c hc; simp at hc; subst hc; decide)
    (by simp [List.isPrefixOf, List.dropWhile])]
  rw [natOfDigits_natDigits]

/-- The `(\d+)\s*min` scan of `{h} hr {m} min` finds `m`. -/
theorem scanUnit_disp_min_full (h m : ℕ) :
    scanUnit true ['m', 'i', 'n']
      (natDigits h ++ (' ' :: 'h' :: 'r' :: ' ' :: (natDigits m ++ [' ', 'm', 'i', 'n']))) =
      some m := by
  rw [scanUnit_run_fail true _ _ (natDigits_all_digit h) ?hfail]
  case hfail =>
    rw [dropWhile_eq_self_of_head Char.isDigit (by intro c hc; simp at hc; subst hc; decide)]
    simp [List.isPrefixOf, List.dropWhile]
  show scanUnit true ['m', 'i', 'n']
    ([' ', 'h', 'r', ' '] ++ (natDigits m ++ [' ', 'm', 'i', 'n'])) = some m
  rw [scanUnit_skip true _ _ (by decide)]
  rw [scanUnit_found true _ (natDigits_ne_nil m) (natDigits_all_digit m)
    (by intro c hc; simp at hc; subst hc; decide)
    (by simp [List.isPrefixOf, List.dropWhile])]
  rw [natOfDigits_natDigits]

/-- The `(\d+)\s*hr` scan of `{h} hr` finds `h`. -/
theorem scanUnit_hr_only_hr (h : ℕ) :
    scanUnit true ['h', 'r'] (natDigits h ++ [' ', 'h', 'r']) = some h := by
  rw [scanUnit_found true _ (natDigits_ne_nil h) (natDigits_all_digit h)
    (by intro c hc; simp at hc; subst hc; decide) (by decide)]
  rw [natOfDigits_natDigits]

/-- The `(\d+)\s*min` scan of `{h} hr` finds nothing. -/
theorem scanUnit_hr_only_min (h : ℕ) :
    scanUnit true ['m', 'i', 'n'] (natDigits h ++ [' ', 'h', 'r']) = none := by
  rw [scanUnit_run_fail true _ _ (natDigits_all_digit h) (by decide)]
  decide

/-- The `(\d+)\s*hr` scan of `{m} min` finds nothing. -/
theorem scanUnit_min_only_hr (m : ℕ) :
    scanUnit true ['h', 'r'] (natDigits m ++ [' ', 'm', 'i', 'n']) = none := by
  rw [scanUnit_run_fail true _ _ (natDigits_all_digit m) (by decide)]
  decide

/-- The `(\d+)\s*min` scan of `{m} min` finds `m`. -/
theorem scanUnit_min_only_min (m : ℕ) :
    scanUnit true ['m', 'i', 'n'] (natDigits m ++ [' ', 'm', 'i', 'n']) = some m := by
  rw [scanUnit_found true _ (natDigits_ne_nil m) (natDigits_all_digit m)
    (by intro c hc; simp at hc; subst hc; decide) (by decide)]
  rw [natOfDigits_natDigits]

/-- The ISO renderer on `PT{h}H{m}M` takes the branch dictated by the
truthiness of `h` and `m`. -/
theorem parse_iso_duration_render (h m : ℕ) :
    parse_iso_duration ("PT" ++ natStr h ++ "H" ++ natStr m ++ "M") =
      (if h ≠ 0 ∧ m ≠ 0 then natStr h ++ " hr " ++ natStr m ++ " min"
       else if h ≠ 0 then natStr h ++ " hr"
       else if m ≠ 0 then natStr m ++ " min"
       else "") := by
  have hne : ("PT" ++ natStr h ++ "H" ++ natStr m ++ "M") ≠ "" := by
    intro hcon
    have h2 := congrArg String.toList hcon
    rw [isoRender_toList] at h2
    simp at h2
  rw [parse_iso_duration, if_neg hne, isoRender_toList, scanUnit_iso_H, scanUnit_iso_M]
  simp only [Option.getD_some]

/-- Parsing the rendered display duration recovers `h + m / 60` exactly. -/
theorem parse_duration_str_render (h m : ℕ) :
    parse_duration_str (parse_iso_duration ("PT" ++ natStr h ++ "H" ++ natStr m ++ "M")) =
      (h : ℚ) + (m : ℚ) / 60 := by
  rw [parse_iso_duration_render]
  by_cases h0 : h = 0 <;> by_cases m0 : m = 0
  · subst h0; subst m0
    simp [parse_duration_str, scanUnit]
  · rw [if_neg (by tauto), if_neg (by tauto), if_pos m0]
    have ht : (natStr m ++ " min").toList = natDigits m ++ [' ', 'm', 'i', 'n'] := by
      simp [string_toList_append, natStr_data]
    rw [parse_duration_str, ht, scanUnit_min_only_hr, scanUnit_min_only_min]
    subst h0
    simp
  · rw [if_neg (by tauto), if_pos h0]
    have ht : (natStr h ++ " hr").toList = natDigits h ++ [' ', 'h', 'r'] := by
      simp [string_toList_append, natStr_data]
    rw [parse_duration_str, ht, scanUnit_hr_only_hr, scanUnit_hr_only_min]
    subst m0
    simp
  · rw [if_pos ⟨h0, m0⟩]
    have ht : (natStr h ++ " hr " ++ natStr m ++ " min").toList =
        natDigits h ++ (' ' :: 'h' :: 'r' :: ' ' :: (natDigits m ++ [' ', 'm', 'i', 'n'])) := by
      simp [string_toList_append, natStr_data]
    rw [parse_duration_str, ht, scanUnit_disp_hr_full, scanUnit_disp_min_full]
    simp only [Option.getD_some]

/-- C10: for all non-negative integers h and m, rendering `PT{h}H{m}M` to
the display form and re-parsing it with the `H hr M min` parser yields
exactly h + m/60 — the same value the analyzer's direct ISO parser returns
on the original string, and the same value `FlightLeg.duration_hours`
computes on a leg storing the rendered form: the two duration pipelines
agree. -/
theorem c10_duration_pipelines_agree (h m : ℕ) :
    parse_duration_str (parse_iso_duration ("PT" ++ natStr h ++ "H" ++ natStr m ++ "M")) =
      (h : ℚ) + (m : ℚ) / 60
    ∧ parse_duration_iso ("PT" ++ natStr h ++ "H" ++ natStr m ++ "M") =
        (h : ℚ) + (m : ℚ) / 60
    ∧ ∀ l : FlightLeg,
        l.duration = parse_iso_duration ("PT" ++ natStr h ++ "H" ++ natStr m ++ "M") →
        l.duration_hours = (h : ℚ) + (m : ℚ) / 60 := by
  refine ⟨parse_duration_str_render h m, ?_, ?_⟩
  · rw [parse_duration_iso, isoRender_toList, scanUnit_iso_H, scanUnit_iso_M]
    simp only [Option.getD_some]
  · intro l hl
    rw [FlightLeg.duration_hours, hl, parse_duration_str_render]

/-- Witness for C10 at `h = 16`, `m = 30`, on a leg storing the rendered
duration of `PT16H30M`. -/
theorem c10_duration_pipelines_agree_witness :
    isoDurationLeg.duration_hours = (16 : ℚ) + (30 : ℚ) / 60 :=
  (c10_duration_pipelines_agree 16 30).2.2 isoDurationLeg (by decide)

/-- A character reported by `head?` is a member. -/
theorem head?_mem {c : Char} {l : List Char} (h : l.head? = some c) : c ∈ l := by
  cases l with
  | nil => simp at h
  | cons a t =>
    simp at h
    subst h
    simp

/-- Two characters with different digit-ness are distinct. -/
theorem digit_ne {c d : Char} (h : c.isDigit = true) (hd : d.isDigit = false) : c ≠ d := by
  intro he
  subst he
  rw [h] at hd
  cases hd

/-- Digit characters are not whitespace. -/
theorem digit_not_ws {c : Char} (h : c.isDigit = true) : c.isWhitespace = false := by
  simp only [Char.isWhitespace, Bool.or_eq_false_iff, decide_eq_false_iff_not]
  exact ⟨⟨⟨digit_ne h (by decide), digit_ne h (by decide)⟩, digit_ne h (by decide)⟩,
    digit_ne h (by decide)⟩

/-- Lowercasing does not change a digit character. -/
theorem digit_toLower {c : Char} (h : c.isDigit = true) : c.toLower = c := by
  simp [Char.isDigit] at h
  have h2 : c.val.toNat ≤ 57 := h.2
  simp only [Char.toLower]
  rw [if_neg]
  rintro ⟨h65, _⟩
  have h3 : c.toNat = c.val.toNat := rfl
  omega

/-- A `takeWhile` keeps a list on which the predicate holds everywhere. -/
theorem takeWhile_all {p : Char → Bool} {l : List Char}
    (h : ∀ c ∈ l, p c = true) : l.takeWhile p = l := by
  induction l with
  | nil => rfl
  | cons c cs ih =>
    simp [List.takeWhile_cons, h c (by simp),
      ih fun x hx => h x (List.mem_cons_of_mem _ hx)]

/-- A `dropWhile` consumes a list on which the predicate holds everywhere. -/
theorem dropWhile_all {p : Char → Bool} {l : List Char}
    (h : ∀ c ∈ l, p c = true) : l.dropWhile p = [] := by
  induction l with
  | nil => rfl
  | cons c cs ih =>
    simp [List.dropWhile_cons, h c (by simp),
      ih fun x hx => h x (List.mem_cons_of_mem _ hx)]

/-- Trimming is the identity on whitespace-free lists. -/
theorem trimWs_eq_self {l : List Char} (h : ∀ c ∈ l, c.isWhitespace = false) :
    trimWs l = l := by
  unfold trimWs
  rw [dropWhile_eq_self_of_head Char.isWhitespace fun c hc => h c (head?_mem hc)]
  rw [dropWhile_eq_self_of_head Char.isWhitespace fun c hc =>
    h c (List.mem_reverse.mp (head?_mem hc))]
  exact List.reverse_reverse l

/-- Characters surviving `trimWs` come from the original list. -/
theorem mem_trimWs {c : Char} {l : List Char} (h : c ∈ trimWs l) : c ∈ l := by
  unfold trimWs at h
  rw [List.mem_reverse] at h
  have h1 := (List.dropWhile_sublist Char.isWhitespace).subset h
  rw [List.mem_reverse] at h1
  exact (List.dropWhile_sublist Char.isWhitespace).subset h1

/-- Characters surviving `removeUS` come from the original list. -/
theorem removeUS_subset (l : List Char) : ∀ c ∈ removeUS l, c ∈ l := by
  induction l using removeUS.induct with
  | case1 cs ih =>
    intro c hc
    simp only [removeUS] at hc
    exact List.mem_cons_of_mem _ (List.mem_cons_of_mem _ (ih c hc))
  | case2 a cs h ih =>
    intro c hc
    simp only [removeUS, h] at hc
    rcases List.mem_cons.mp hc with rfl | hc2
    · exact List.mem_cons_self _ _
    · exact List.mem_cons_of_mem _ (ih c hc2)
  | case3 => simp [removeUS]

/-- `removeUS` is the identity on `U`-free lists. -/
theorem removeUS_eq_self {l : List Char} (h : ∀ c ∈ l, c ≠ 'U') : removeUS l = l := by
  induction l using removeUS.induct with
  | case1 cs ih => exact absurd rfl (h 'U' (by simp))
  | case2 a cs hne ih =>
    simp only [removeUS, hne]
    rw [ih fun x hx => h x (List.mem_cons_of_mem _ hx)]
  | case3 => rfl

/-- Characters surviving the price cleaning come from the original string. -/
theorem cleanedPrice_subset (s : String) : ∀ c ∈ cleanedPrice s, c ∈ s.toList := by
  intro c hc
  unfold cleanedPrice at hc
  have h1 := mem_trimWs hc
  have h2 := removeUS_subset _ c h1
  exact List.mem_of_mem_filter (List.mem_of_mem_filter h2)

/-- The sign splitter keeps the remainder inside the original list. -/
theorem splitSign_snd_subset (l : List Char) : ∀ c ∈ (splitSign l).2, c ∈ l := by
  rcases l with _ | ⟨a, t⟩
  · simp [splitSign]
  · intro c hc
    simp only [splitSign] at hc
    split_ifs at hc <;> simp_all

/-- A digit-free input has no numeric-literal reading. -/
theorem parseNumericQ_eq_none {cs : List Char} (h : ∀ c ∈ cs, c.isDigit = false) :
    parseNumericQ cs = none := by
  have hd1 : cs.takeWhile Char.isDigit = [] :=
    takeWhile_eq_nil_of_head Char.isDigit fun c hc => h c (head?_mem hc)
  have hr1 : cs.dropWhile Char.isDigit = cs :=
    dropWhile_eq_self_of_head Char.isDigit fun c hc => h c (head?_mem hc)
  unfold parseNumericQ
  rw [hd1, hr1]
  rcases hcs : cs with _ | ⟨c, t⟩
  · rfl
  · by_cases hdot : c = '.'
    · subst hdot
      have hd2 : t.takeWhile Char.isDigit = [] :=
        takeWhile_eq_nil_of_head Char.isDigit fun x hx =>
          h x (hcs ▸ List.mem_cons_of_mem _ (head?_mem hx))
      simp [hd2]
    · dsimp only
      split
      · rename_i r2 heq
        rw [List.cons.injEq] at heq
        exact absurd heq.1 hdot
      · rfl

/-- A pure digit run reads as the corresponding whole number. -/
theorem parseNumericQ_digits (n : ℕ) : parseNumericQ (natDigits n) = some ((n : ℚ)) := by
  unfold parseNumericQ
  rw [takeWhile_all (natDigits_all_digit n), dropWhile_all (natDigits_all_digit n)]
  simp [natDigits_ne_nil n, parseExpPart, natOfDigits_natDigits]

/-- The sign splitter is the identity on digit-initial input. -/
theorem splitSign_of_head_digit {l : List Char}
    (h : ∀ c, l.head? = some c → c.isDigit = true) : splitSign l = (false, l) := by
  rcases l with _ | ⟨a, t⟩
  · rfl
  · have ha := h a rfl
    simp only [splitSign]
    rw [if_neg (digit_ne ha (by decide)), if_neg (digit_ne ha (by decide))]

/-- Python `float()` on the decimal rendering of a natural number. -/
theorem pyFloatOfString_digits (n : ℕ) :
    pyFloatOfString (String.mk (natDigits n)) = some (.val n) := by
  have hdig := natDigits_all_digit n
  have hnw : ∀ c ∈ natDigits n, c.isWhitespace = false :=
    fun c hc => digit_not_ws (hdig c hc)
  have htrim : trimWs (String.mk (natDigits n)).toList = natDigits n := trimWs_eq_self hnw
  have hss : splitSign (natDigits n) = (false, natDigits n) :=
    splitSign_of_head_digit fun c hc => hdig c (head?_mem hc)
  have hlow : (natDigits n).map Char.toLower = natDigits n := by
    rw [show (natDigits n).map Char.toLower = (natDigits n).map id from
      List.map_congr_left fun c hc => digit_toLower (hdig c hc), List.map_id]
  have hne1 : natDigits n ≠ ['i', 'n', 'f'] := fun he =>
    absurd (hdig 'i' (by rw [he]; simp)) (by decide)
  have hne2 : natDigits n ≠ ['i', 'n', 'f', 'i', 'n', 'i', 't', 'y'] := fun he =>
    absurd (hdig 'i' (by rw [he]; simp)) (by decide)
  have hne3 : natDigits n ≠ ['n', 'a', 'n'] := fun he =>
    absurd (hdig 'n' (by rw [he]; simp)) (by decide)
  unfold pyFloatOfString
  dsimp only
  rw [htrim, hss]
  simp only [hlow]
  rw [if_neg (by tauto), if_neg hne3, parseNumericQ_digits]
  simp

/-- Rounding a whole number (ties cannot occur) returns it unchanged. -/
theorem halfEvenN_natCast (n : ℕ) : halfEvenN (n : ℚ) = n := by
  unfold halfEvenN
  dsimp only
  rw [Int.floor_natCast]
  norm_num

/-- Rounding a non-negative rational yields a non-negative integer. -/
theorem halfEvenN_nonneg {q : ℚ} (h : 0 ≤ q) : 0 ≤ halfEvenN q := by
  unfold halfEvenN
  dsimp only
  have hf : (0 : ℤ) ≤ ⌊q⌋ := Int.floor_nonneg.mpr h
  split_ifs <;> omega

/-- Python `float()` fails on digit-free input whose cleaned form is not a
signed special literal. -/
theorem pyFloatOfString_eq_none {s : String} (hnd : ∀ c ∈ s.toList, c.isDigit = false)
    (hsp : isInfNanLit (trimWs s.toList) = false) : pyFloatOfString s = none := by
  have hsr : ∀ c ∈ (splitSign (trimWs s.toList)).2, c.isDigit = false :=
    fun c hc => hnd c (mem_trimWs (splitSign_snd_subset _ c hc))
  simp only [isInfNanLit, Bool.or_eq_false_iff, decide_eq_false_iff_not] at hsp
  obtain ⟨⟨h1, h2⟩, h3⟩ := hsp
  unfold pyFloatOfString
  dsimp only
  rw [if_neg ?hinf, if_neg ?hnan, parseNumericQ_eq_none hsr]
  case hinf =>
    rintro (hx | hx)
    · exact h1 (by rw [← hx])
    · exact h2 (by rw [← hx])
  case hnan => intro hx; exact h3 (by rw [← hx])

/-- `parse_price` on a digit-free string whose cleaned form is not a signed
special literal yields the invalid sentinel. -/
theorem parse_price_no_digit {s : String} (hnd : ∀ c ∈ s.toList, c.isDigit = false)
    (hsp : isInfNanLit (trimWs (cleanedPrice s)) = false) : parse_price s = .inf := by
  by_cases hs : s = ""
  · rw [parse_price, if_pos hs]
  · rw [parse_price, if_neg hs]
    have hnone := @pyFloatOfString_eq_none (String.mk (cleanedPrice s))
      (fun c hc => hnd c (cleanedPrice_subset s c hc)) hsp
    rw [hnone]

/-- `parse_price` on any string whose characters are `$` followed by the
decimal rendering of a natural number yields exactly that number. -/
theorem parse_price_of_toList_dollar_digits {s : String} {n : ℕ}
    (h : s.toList = '$' :: natDigits n) : parse_price s = .val n := by
  have hdig := natDigits_all_digit n
  have hs : s ≠ "" := by
    intro h0
    rw [h0] at h
    simp at h
  have hclean : cleanedPrice s = natDigits n := by
    unfold cleanedPrice
    rw [h]
    have h1 : ('$' :: natDigits n).filter (fun c => decide (c ≠ '$')) = natDigits n := by
      rw [List.filter_cons, if_neg (by decide)]
      exact List.filter_eq_self.mpr fun c hc => by
        simpa using digit_ne (hdig c hc) (by decide)
    rw [h1]
    have h2 : (natDigits n).filter (fun c => decide (c ≠ ',')) = natDigits n :=
      List.filter_eq_self.mpr fun c hc => by
        simpa using digit_ne (hdig c hc) (by decide)
    rw [h2]
    rw [removeUS_eq_self fun c hc => digit_ne (hdig c hc) (by decide)]
    exact trimWs_eq_self fun c hc => digit_not_ws (hdig c hc)
  rw [parse_price, if_neg hs, hclean, pyFloatOfString_digits]

/-- `parse_price` reads back the canonical non-negative price rendering as
the price rounded half-to-even to a whole number. -/
theorem parse_price_render_nonneg {q : ℚ} (h0 : 0 ≤ q) :
    parse_price (renderPrice (.val q)) = .val ((halfEvenN q).toNat : ℚ) := by
  have hq : ¬ q < 0 := not_lt.mpr h0
  have habs : |q| = q := abs_of_nonneg h0
  apply parse_price_of_toList_dollar_digits
  simp [renderPrice, formatF0, hq, habs, string_toList_append, natStr_data]

/-- C8 counterexample: the digit-free string `nan` parses to NaN — which is
not the `inf` sentinel — because `float('nan')` succeeds; and re-parsing the
canonical `"$<n>"` rendering of the previously parsed valid price `$10.25`
yields 10, not the original 10.25, because the `%.0f` rendering rounds. -/
theorem c8_counterexample :
    parse_price "nan" = .nan
    ∧ "nan".toList.all (fun c => !c.isDigit) = true
    ∧ parse_price "$10.25" = .val (41 / 4)
    ∧ parse_price (renderPrice (parse_price "$10.25")) = .val 10
    ∧ PyFloat.val 10 ≠ PyFloat.val (41 / 4) :=
  ⟨by decide, by decide, by decide, by decide, by decide⟩

/-- C8 amended: `parse_price` is a total function (never throws); a
digit-free string yields the invalid sentinel unless its cleaned form is an
optionally-signed `inf`/`infinity`/`nan` literal, which `float()` accepts;
parsing the canonical `"$<n>"` rendering of a previously parsed valid
non-negative price yields that price rounded half-to-even to a whole
number — the same number exactly when the price is a whole number, as in
the `"$<n>"` rendering of any natural n — and parse-of-render is
idempotent. -/
theorem c8_amended :
    (∀ s : String, (∀ c ∈ s.toList, c.isDigit = false) →
      isInfNanLit (trimWs (cleanedPrice s)) = false → parse_price s = .inf)
    ∧ (∀ q : ℚ, 0 ≤ q →
        parse_price (renderPrice (.val q)) = .val ((halfEvenN q).toNat : ℚ))
    ∧ (∀ n : ℕ, parse_price ("$" ++ natStr n) = .val n)
    ∧ ∀ q : ℚ, 0 ≤ q →
        parse_price (renderPrice (parse_price (renderPrice (.val q)))) =
          parse_price (renderPrice (.val q)) := by
  refine ⟨fun s h1 h2 => parse_price_no_digit h1 h2,
    fun q h0 => parse_price_render_nonneg h0,
    fun n => parse_price_of_toList_dollar_digits
      (by simp [string_toList_append, natStr_data]),
    fun q h0 => ?_⟩
  rw [parse_price_render_nonneg h0,
    parse_price_render_nonneg (by positivity),
    halfEvenN_natCast, Int.toNat_natCast]

/-- Witness for C8's amended claim at concrete inputs. -/
theorem c8_amended_witness :
    parse_price "abc" = .inf
    ∧ parse_price (renderPrice (.val (21 / 2))) = .val ((halfEvenN (21 / 2)).toNat : ℚ)
    ∧ parse_price ("$" ++ natStr 500) = .val 500
    ∧ parse_price (renderPrice (parse_price (renderPrice (.val (21 / 2))))) =
        parse_price (renderPrice (.val (21 / 2))) :=
  ⟨c8_amended.1 "abc" (by decide) (by decide),
   c8_amended.2.1 (21 / 2) (by norm_num),
   c8_amended.2.2.1 500,
   c8_amended.2.2.2 (21 / 2) (by norm_num)⟩
